import Mathlib

/-!
Verification development for the PricePilot GitHub-backed document store
(`src/api/githubDbClient.js`).

The embedding models JavaScript runtime values as the inductive `Value`
(numbers restricted to integers; floating point is outside the claims),
JS objects as ordered association lists (`Obj`), and each entity-client
operation (`list`, `get`, `create`, `update`, `delete`, `toggleLike`,
`toggleDislike`) as a pure function on the in-memory collection, exactly
following the source's control flow between its `getStorage` read and its
`setStorage` write.  The versioned-write protocol of `setStorage`
(SHA cache, 409 conflict, refresh-and-retry) is modelled separately as a
small state machine, and the byte-safe encode/decode pair of the
read/write paths is modelled as UTF-8 + base64 over code-point and byte
lists.
-/

namespace PricePilot

/-- A JavaScript runtime value as manipulated by the client: `undefined`,
`null`, booleans, (integer) numbers, strings, arrays, plain objects. -/
inductive Value where
  | vUndef : Value
  | vNull : Value
  | vBool : Bool → Value
  | vNum : Int → Value
  | vStr : String → Value
  | vArr : List Value → Value
  | vObj : List (String × Value) → Value

/-- A JS object: an ordered association list of fields (insertion order,
unique keys in practice). The entity records of the collections are `Obj`s. -/
abbrev Obj := List (String × Value)

/-! Field-name constants used by the client. -/

def kId : String := "id"
def kLikes : String := "likes"
def kDislikes : String := "dislikes"
def kEditHistory : String := "edit_history"
def kCreatedDate : String := "created_date"
def kCreatedBy : String := "created_by"
def kCreatedByName : String := "created_by_name"
def kUpdatedDate : String := "updated_date"
def kUpdatedBy : String := "updated_by"
def kUpdatedByName : String := "updated_by_name"
def kUserId : String := "user_id"
def kTimestamp : String := "timestamp"
def kUserName : String := "user_name"
def kField : String := "field"
def kOld : String := "old"
def kNew : String := "new"
def kChanges : String := "changes"

/-- Property read `o[k]` before the `undefined` default: `some` iff the key
is present. -/
def getF : Obj → String → Option Value
  | [], _ => none
  | p :: rest, k => if p.1 = k then some p.2 else getF rest k

/-- Property read `o[k]`: an absent key reads as `undefined`. -/
def getFD (o : Obj) (k : String) : Value :=
  (getF o k).getD Value.vUndef

/-- Property write `o[k] = v` (also the effect of a later entry for `k` in an
object literal): replaces the value in place, or appends the key. -/
def setF : Obj → String → Value → Obj
  | [], k, v => [(k, v)]
  | p :: rest, k, v => if p.1 = k then (k, v) :: rest else p :: setF rest k v

/-- Object spread `\x7b...a, ...b\x7d`: assign every field of `b` over `a`
in order. -/
def spread (a b : Obj) : Obj :=
  b.foldl (fun acc p => setF acc p.1 p.2) a

/-- JS truthiness (`NaN` is not modelled; numbers are integers). -/
def truthy : Value → Bool
  | .vUndef => false
  | .vNull => false
  | .vBool b => b
  | .vNum n => n != 0
  | .vStr s => s != ""
  | .vArr _ => true
  | .vObj _ => true

mutual

/-- JS `String(v)` coercion restricted to the value universe above
(arrays join their elements with commas, objects print as
`[object Object]`). -/
def jsStr : Value → String
  | .vUndef => "undefined"
  | .vNull => "null"
  | .vBool b => cond b ("true") ("false")
  | .vNum n => toString n
  | .vStr s => s
  | .vArr l => jsStrElems l
  | .vObj _ => "[object Object]"

/-- `Array.prototype.join(",")`: `null`/`undefined` elements render empty. -/
def jsStrElems : List Value → String
  | [] => ""
  | [v] => jsStrElem v
  | v :: rest => jsStrElem v ++ "," ++ jsStrElems rest

/-- One array element under `join`. -/
def jsStrElem : Value → String
  | .vUndef => ""
  | .vNull => ""
  | v => jsStr v

end

@[simp] theorem jsStr_vStr (s : String) : jsStr (Value.vStr s) = s := by
  simp [jsStr]

@[simp] theorem jsStr_vUndef : jsStr Value.vUndef = ("undefined") := by
  simp [jsStr]

@[simp] theorem jsStr_vNum (n : Int) : jsStr (Value.vNum n) = toString n := by
  simp [jsStr]

/-- Escape for JSON string literals (quote and backslash; control-character
escapes are elided, no claim exercises them). -/
def escapeJson (s : String) : String :=
  String.join (s.toList.map (fun c =>
    if c == Char.ofNat 34 then "\\\"" else
    if c == Char.ofNat 92 then "\\\\" else String.singleton c))

mutual

/-- `JSON.stringify` on a defined value (`undefined` only renders inside an
array, as `null`). -/
def stringifyV : Value → String
  | .vUndef => "null"
  | .vNull => "null"
  | .vBool b => cond b ("true") ("false")
  | .vNum n => toString n
  | .vStr s => "\"" ++ escapeJson s ++ "\""
  | .vArr l => "[" ++ stringifyItems l ++ "]"
  | .vObj l => "\x7b" ++ String.intercalate (",") (stringifyFields l) ++ "\x7d"

/-- Array items, comma separated. -/
def stringifyItems : List Value → String
  | [] => ""
  | [v] => stringifyV v
  | v :: rest => stringifyV v ++ "," ++ stringifyItems rest

/-- Object fields in insertion order; keys with `undefined` values are
dropped, as `JSON.stringify` does. -/
def stringifyFields : List (String × Value) → List String
  | [] => []
  | (_, .vUndef) :: rest => stringifyFields rest
  | (k, v) :: rest =>
      ("\"" ++ escapeJson k ++ "\":" ++ stringifyV v) :: stringifyFields rest

end

/-- `JSON.stringify(v)` at top level: `undefined` for `undefined`. -/
def stringifyTop : Value → Option String
  | .vUndef => none
  | v => some (stringifyV v)

/-! ## The entity client (`createEntityClient`)

Each operation reads the collection through `getStorage`, mutates the
in-memory array, and writes through `setStorage`.  The functions below are
the mutation cores on the in-memory collection; the returned `Bool`
components record whether `setStorage` is invoked.  The `findIndex` /
`items[index] = ...` in-place pattern of the source is rendered as
first-match replacement. -/

/-- JS strict equality `e === uid` for a string `uid`: equal string values
only (an object or array operand is compared by reference and is never
strictly equal to a string). -/
def isStrVal (uid : String) : Value → Bool
  | .vStr s => s == uid
  | _ => false

/-- `arr.splice(arr.indexOf(x), 1)` on a present element: remove the first
strictly-equal occurrence; identity when absent. -/
def removeFirst (uid : String) : List Value → List Value
  | [] => []
  | v :: rest => if isStrVal uid v then rest else v :: removeFirst uid rest

/-- The record-locating test `String(item.id) === String(id)`. -/
def idMatch (it : Obj) (idv : Value) : Bool :=
  jsStr (getFD it kId) == jsStr idv

/-- `items.find(...)` / `items[items.findIndex(...)]`: the first record whose
id matches. -/
def findRec (idv : Value) : List Obj → Option Obj
  | [] => none
  | it :: rest => if idMatch it idv then some it else findRec idv rest

/-- In-place update `items[index] = f items[index]` for
`index = findIndex(...)`: replace the first matching record. -/
def replaceFirst (idv : Value) (f : Obj → Obj) : List Obj → List Obj
  | [] => []
  | it :: rest => if idMatch it idv then f it :: rest else it :: replaceFirst idv f rest

/-- Read a reaction/history field as an array: falsy values coerce to `[]`
(the `item.likes = []` normalization and the `(x || [])` pattern); a truthy
non-array value would throw in the source and is excluded by the
well-formedness hypotheses of the theorems. -/
def asArr : Value → List Value
  | .vArr l => l
  | _ => []

/-- `userId || user.id`: the supplied actor id overrides the session
identity unless it is falsy (absent or the empty string). -/
def resolveActor : Option String → String → String
  | some s, d => if s = "" then d else s
  | none, d => d

/-- The shared prelude of both toggles (lines 356-357 and 379-380):
`if (!item.likes) item.likes = []; if (!item.dislikes) item.dislikes = []`. -/
def normalizeReactions (item : Obj) : Obj :=
  let item1 := if truthy (getFD item kLikes) then item else setF item kLikes (.vArr [])
  if truthy (getFD item1 kDislikes) then item1 else setF item1 kDislikes (.vArr [])

/-- One step of the per-record `toggleLike` logic (lines 354-366): normalize
falsy `likes`/`dislikes` to `[]`; if the actor is in `likes` remove it,
otherwise push it to `likes` and remove it from `dislikes` if present. -/
def toggleLikeRec (item : Obj) (uid : String) : Obj :=
  let item2 := normalizeReactions item
  let likes := asArr (getFD item2 kLikes)
  let dislikes := asArr (getFD item2 kDislikes)
  if likes.any (isStrVal uid) then
    setF item2 kLikes (.vArr (removeFirst uid likes))
  else
    let item3 := setF item2 kLikes (.vArr (likes ++ [.vStr uid]))
    if dislikes.any (isStrVal uid) then
      setF item3 kDislikes (.vArr (removeFirst uid dislikes))
    else item3

/-- One step of the per-record `toggleDislike` logic (lines 377-389),
symmetric to `toggleLikeRec`. -/
def toggleDislikeRec (item : Obj) (uid : String) : Obj :=
  let item2 := normalizeReactions item
  let likes := asArr (getFD item2 kLikes)
  let dislikes := asArr (getFD item2 kDislikes)
  if dislikes.any (isStrVal uid) then
    setF item2 kDislikes (.vArr (removeFirst uid dislikes))
  else
    let item3 := setF item2 kDislikes (.vArr (dislikes ++ [.vStr uid]))
    if likes.any (isStrVal uid) then
      setF item3 kLikes (.vArr (removeFirst uid likes))
    else item3

/-- A `\x7bfield, old, new\x7d` triple of the field-level diff. -/
structure Change where
  field : String
  old : Value
  new : Value

/-- The diff loop of `update` (lines 309-318): for each payload key other
than `edit_history` whose `JSON.stringify` image differs between the stored
record and the payload, record a change triple. -/
def diffChanges (old : Obj) (data : Obj) : List Change :=
  data.filterMap (fun p =>
    if p.1 ≠ kEditHistory ∧ stringifyTop (getFD old p.1) ≠ stringifyTop p.2
    then some ⟨p.1, getFD old p.1, p.2⟩ else none)

/-- A change triple as the object stored in the history entry. -/
def changeToValue (c : Change) : Value :=
  .vObj [(kField, .vStr c.field), (kOld, c.old), (kNew, c.new)]

/-- The `historyEntry` object of `update` (lines 321-326). -/
def mkHistEntry (now uid uname : String) (chs : List Change) : Value :=
  .vObj [(kTimestamp, .vStr now), (kUserId, .vStr uid), (kUserName, .vStr uname),
    (kChanges, .vArr (chs.map changeToValue))]

/-- The per-record core of `update` (lines 305-339): compute the diff; if
empty, leave the record alone and skip the write; otherwise merge the
payload, bump the attribution fields, append one history entry, and write.
The `Bool` records whether `setStorage` is called. -/
def updateRec (now uid uname : String) (data : Obj) (old : Obj) : Obj × Bool :=
  let chs := diffChanges old data
  if chs.isEmpty then (old, false)
  else
    let merged :=
      setF (setF (setF (setF (spread old data)
        kUpdatedDate (.vStr now))
        kUpdatedBy (.vStr uid))
        kUpdatedByName (.vStr uname))
        kEditHistory (.vArr (asArr (getFD old kEditHistory) ++ [mkHistEntry now uid uname chs]))
    (merged, true)

namespace DB

/-- `get(id)` (lines 271-274). -/
def get (items : List Obj) (idv : Value) : Option Obj :=
  findRec idv items

/-- `create(data, userId)` (lines 276-298): the new record is the payload
spread under the system fields; `genId` is the value of
`Math.random().toString(36).substr(2, 9)`, `now` the ISO timestamp, and
`session` the `getCurrentUser()` identity.  Returns the written collection
and the new record. -/
def create (items : List Obj) (data : Obj) (genId now : String)
    (userId : Option String) (session : String × String) : List Obj × Obj :=
  let finalUserId := resolveActor userId session.1
  let finalUserName := session.2
  let newItem :=
    setF (setF (setF (setF (setF (setF (setF (setF (setF (setF (spread [] data)
      kId (.vStr genId))
      kCreatedDate (.vStr now))
      kCreatedBy (.vStr finalUserId))
      kCreatedByName (.vStr finalUserName))
      kUpdatedDate (.vStr now))
      kUpdatedBy (.vStr finalUserId))
      kUpdatedByName (.vStr finalUserName))
      kLikes (.vArr []))
      kDislikes (.vArr []))
      kEditHistory (.vArr [])
  (items ++ [newItem], newItem)

/-- `update(id, data, userId)` (lines 300-342): returns the resulting
collection, the returned record (`null` when the id is not found), and
whether `setStorage` is called. -/
def update (items : List Obj) (idv : Value) (data : Obj) (now : String)
    (userId : Option String) (session : String × String) :
    List Obj × Option Obj × Bool :=
  let uid := resolveActor userId session.1
  let uname := session.2
  match findRec idv items with
  | some it =>
      let r := updateRec now uid uname data it
      (replaceFirst idv (fun _ => r.1) items, some r.1, r.2)
  | none => (items, none, false)

/-- `delete(id)` (lines 344-349): filter the id out (no-op when absent),
always persist, always report success. -/
def deleteOp (items : List Obj) (idv : Value) : List Obj × Bool :=
  (items.filter (fun it => ! idMatch it idv), true)

/-- `toggleLike(id, userId)` (lines 351-372): returns the resulting
collection and the returned record (`null`, with no write, when the id is
not found). -/
def toggleLike (items : List Obj) (idv : Value) (uid : String) :
    List Obj × Option Obj :=
  match findRec idv items with
  | some it =>
      (replaceFirst idv (fun r => toggleLikeRec r uid) items,
        some (toggleLikeRec it uid))
  | none => (items, none)

/-- `toggleDislike(id, userId)` (lines 374-395). -/
def toggleDislike (items : List Obj) (idv : Value) (uid : String) :
    List Obj × Option Obj :=
  match findRec idv items with
  | some it =>
      (replaceFirst idv (fun r => toggleDislikeRec r uid) items,
        some (toggleDislikeRec it uid))
  | none => (items, none)

end DB

/-! ## `list` and its visibility rule -/

/-- Entities filtered by `user_id` when listing (line 233). -/
def PRIVATE_ENTITIES : List String := ["ShoppingList"]

/-- Entities never filtered by user (line 239). -/
def SHARED_ENTITIES : List String := ["Product", "PriceEntry", "Store", "User"]

/-- JS abstract `<` restricted to the operand shapes the collections hold:
numeric on two numbers, lexicographic on two strings; mixed or
non-primitive operands (which the source would coerce) are treated as
incomparable.  No claim exercises sorting. -/
def jsLtV : Value → Value → Bool
  | .vNum a, .vNum b => a < b
  | .vStr a, .vStr b => a < b
  | _, _ => false

/-- Stable insertion step of the comparator sort. -/
def insertSorted (lt : Obj → Obj → Bool) (x : Obj) : List Obj → List Obj
  | [] => [x]
  | y :: ys => if lt x y then x :: y :: ys else y :: insertSorted lt x ys

/-- `items.sort(comparator)` modelled as a stable comparator sort. -/
def sortByComparator (lt : Obj → Obj → Bool) (l : List Obj) : List Obj :=
  l.foldr (insertSorted lt) []

/-- The owner test `String(item.user_id) === String(userId)`. -/
def ownerMatches (u : Value) (it : Obj) : Bool :=
  jsStr (getFD it kUserId) == jsStr u

/-- `items.slice(0, limit)` for an integer limit. -/
def jsSlice (l : List Obj) (n : Int) : List Obj :=
  if 0 ≤ n then l.take n.toNat else l.take (l.length - (-n).toNat)

/-- `list(sort, limit, userId)` (lines 242-262): owner filtering only for a
private entity with a truthy owner argument, then the optional field sort
(descending on a `-` marker), then the truthy-limit truncation. -/
def DB.list (entityName : String) (sort : Option String) (limit : Option Int)
    (userId : Option Value) (items0 : List Obj) : List Obj :=
  let items1 :=
    match userId with
    | some u =>
        if PRIVATE_ENTITIES.contains entityName && truthy u
        then items0.filter (ownerMatches u) else items0
    | none => items0
  let items2 :=
    match sort with
    | some s =>
        let isDesc := s.startsWith ("-")
        let field := if isDesc then s.drop 1 else s
        let lt := fun a b =>
          if isDesc then jsLtV (getFD b field) (getFD a field)
          else jsLtV (getFD a field) (getFD b field)
        sortByComparator lt items1
    | none => items1
  match limit with
  | some n => if n != 0 then jsSlice items2 n else items2
  | none => items2

/-! ## The versioned write path (`getStorage` / `setStorage`)

The remote blob of one entity type holds the serialized collection and a
revision token (the file SHA), modelled as a counter bumped by every
successful write; a write succeeds exactly when the SHA it carries matches
the blob's current one. -/

/-- The remote blob state for one entity type. -/
structure Remote where
  content : List Obj
  rev : Nat

/-- `getStorage` against a reachable remote (lines 52-59): return the
collection and the SHA that goes into the writer's `shaCache`. -/
def getStorageM (r : Remote) : List Obj × Nat :=
  (r.content, r.rev)

/-- `setStorage` against a reachable remote (lines 126-210): the collection
is serialized once into `jsonString` (line 128) and written with the cached
SHA.  On a 409 conflict the source re-fetches the file but keeps only
`currentFile.data.sha` (line 169), re-encodes the unchanged `jsonString`
(lines 172-177), and retries the write with the fresh SHA (lines 180-188).
Returns the new remote state and the new cached SHA. -/
def setStorageM (r : Remote) (cachedSha : Nat) (data : List Obj) : Remote × Nat :=
  let jsonString := data
  if cachedSha == r.rev then
    (⟨jsonString, r.rev + 1⟩, r.rev + 1)
  else
    let freshSha := r.rev
    (⟨jsonString, freshSha + 1⟩, freshSha + 1)

/-- The read-mutate-write interleaving of two writers that both read the
same initial state: A writes first and succeeds; B's write then carries a
stale SHA, hits the 409 path, and is retried. -/
def conflictedPair (r0 : Remote) (mutA mutB : List Obj → List Obj) : Remote :=
  let readA := getStorageM r0
  let readB := getStorageM r0
  let stepA := setStorageM r0 readA.2 (mutA readA.1)
  let stepB := setStorageM stepA.1 readB.2 (mutB readB.1)
  stepB.1

/-- The ids present in a stored collection (via the JS string form of the
`id` field). -/
def idsOf (items : List Obj) : List String :=
  items.map (fun it => jsStr (getFD it kId))

/-! ## The byte-safe encode/decode pair

The write path encodes `btoa(unescape(encodeURIComponent(jsonString)))`:
the UTF-8 bytes of the string, base64'd.  The read path decodes with
`atob`, a byte-per-character `charCodeAt` extraction, and
`TextDecoder().decode`: base64 back to bytes, then UTF-8 back to text.
Strings are modelled as lists of Unicode code points and byte strings as
lists of naturals below 256. -/

/-- UTF-8 bytes of one code point. -/
def utf8EncodeChar (c : Nat) : List Nat :=
  if c < 0x80 then [c]
  else if c < 0x800 then [0xC0 + c / 64, 0x80 + c % 64]
  else if c < 0x10000 then [0xE0 + c / 4096, 0x80 + (c / 64) % 64, 0x80 + c % 64]
  else [0xF0 + c / 262144, 0x80 + (c / 4096) % 64, 0x80 + (c / 64) % 64, 0x80 + c % 64]

/-- UTF-8 bytes of a string (what `unescape(encodeURIComponent(s))` holds,
one byte per character). -/
def utf8Encode : List Nat → List Nat
  | [] => []
  | c :: cs => utf8EncodeChar c ++ utf8Encode cs

/-- A UTF-8 continuation byte. -/
def isCont (b : Nat) : Bool := 0x80 ≤ b && b < 0xC0

mutual

/-- `TextDecoder().decode`: parse UTF-8, rejecting overlong forms, lead
bytes `C0`/`C1`/`F5+`, and encoded surrogates; an invalid or truncated
sequence yields the replacement character `U+FFFD` and decoding resumes
after the examined bytes (the source only ever feeds this decoder its own
encoder's output, so the error resumption granularity is not
load-bearing). -/
def utf8Decode : List Nat → List Nat
  | [] => []
  | b0 :: rest =>
    if b0 < 0x80 then b0 :: utf8Decode rest
    else if b0 < 0xC2 then 0xFFFD :: utf8Decode rest
    else if b0 < 0xE0 then utf8DecodeTwo b0 rest
    else if b0 < 0xF0 then utf8DecodeThree b0 rest
    else if b0 < 0xF5 then utf8DecodeFour b0 rest
    else 0xFFFD :: utf8Decode rest

/-- A two-byte sequence after lead byte `b0`. -/
def utf8DecodeTwo (b0 : Nat) : List Nat → List Nat
  | b1 :: rest2 =>
      if isCont b1 then ((b0 - 0xC0) * 64 + (b1 - 0x80)) :: utf8Decode rest2
      else 0xFFFD :: utf8Decode rest2
  | [] => [0xFFFD]

/-- A three-byte sequence after lead byte `b0`. -/
def utf8DecodeThree (b0 : Nat) : List Nat → List Nat
  | b1 :: b2 :: rest2 =>
      if isCont b1 && isCont b2 && !(b0 == 0xE0 && b1 < 0xA0) &&
          !(b0 == 0xED && 0xA0 ≤ b1) then
        ((b0 - 0xE0) * 4096 + (b1 - 0x80) * 64 + (b2 - 0x80)) :: utf8Decode rest2
      else 0xFFFD :: utf8Decode rest2
  | _ => [0xFFFD]

/-- A four-byte sequence after lead byte `b0`. -/
def utf8DecodeFour (b0 : Nat) : List Nat → List Nat
  | b1 :: b2 :: b3 :: rest2 =>
      if isCont b1 && isCont b2 && isCont b3 && !(b0 == 0xF0 && b1 < 0x90) &&
          !(b0 == 0xF4 && 0x90 ≤ b1) then
        ((b0 - 0xF0) * 262144 + (b1 - 0x80) * 4096 + (b2 - 0x80) * 64 +
          (b3 - 0x80)) :: utf8Decode rest2
      else 0xFFFD :: utf8Decode rest2
  | _ => [0xFFFD]

end

/-- The base64 alphabet, sextet to character code. -/
def sextetToChar (s : Nat) : Nat :=
  if s < 26 then 65 + s
  else if s < 52 then 97 + (s - 26)
  else if s < 62 then 48 + (s - 52)
  else if s == 62 then 43 else 47

/-- The base64 alphabet, character code back to sextet. -/
def charToSextet (c : Nat) : Nat :=
  if 65 ≤ c && c ≤ 90 then c - 65
  else if 97 ≤ c && c ≤ 122 then (c - 97) + 26
  else if 48 ≤ c && c ≤ 57 then (c - 48) + 52
  else if c == 43 then 62
  else if c == 47 then 63
  else 0

/-- `btoa`: bytes to base64 character codes, `=` (61) padded. -/
def base64Encode : List Nat → List Nat
  | a :: b :: c :: rest =>
      sextetToChar (a / 4) :: sextetToChar ((a % 4) * 16 + b / 16) ::
      sextetToChar ((b % 16) * 4 + c / 64) :: sextetToChar (c % 64) ::
      base64Encode rest
  | [a, b] => [sextetToChar (a / 4), sextetToChar ((a % 4) * 16 + b / 16),
      sextetToChar ((b % 16) * 4), 61]
  | [a] => [sextetToChar (a / 4), sextetToChar ((a % 4) * 16), 61, 61]
  | [] => []

/-- `atob`: base64 character codes back to bytes (a malformed input throws
in JS; the model is total and only ever applied to `btoa` output). -/
def base64Decode : List Nat → List Nat
  | c1 :: c2 :: c3 :: c4 :: rest =>
      let s1 := charToSextet c1
      let s2 := charToSextet c2
      if c3 == 61 then [s1 * 4 + s2 / 16]
      else
        let s3 := charToSextet c3
        if c4 == 61 then [s1 * 4 + s2 / 16, (s2 % 16) * 16 + s3 / 4]
        else
          let s4 := charToSextet c4
          (s1 * 4 + s2 / 16) :: ((s2 % 16) * 16 + s3 / 4) ::
            ((s3 % 4) * 64 + s4) :: base64Decode rest
  | _ => []

/-- The write-path encoding of lines 133-139. -/
def encodeContent (s : List Nat) : List Nat := base64Encode (utf8Encode s)

/-- The read-path decoding of lines 60-66. -/
def decodeContent (b : List Nat) : List Nat := utf8Decode (base64Decode b)

/-- A valid Unicode scalar value (what a well-formed JS string, in
particular any `JSON.stringify` output, consists of). -/
def validScalar (c : Nat) : Prop := c < 0x110000 ∧ ¬(0xD800 ≤ c ∧ c < 0xE000)

/-! ## Basic lemmas on the object model -/

theorem getF_setF_same (o : Obj) (k : String) (v : Value) :
    getF (setF o k v) k = some v := by
  induction o with
  | nil => simp [setF, getF]
  | cons p rest ih =>
      by_cases h : p.1 = k
      · simp [setF, getF, h]
      · simp [setF, getF, h, ih]

theorem getF_setF_ne (o : Obj) (k k2 : String) (v : Value) (h : k2 ≠ k) :
    getF (setF o k v) k2 = getF o k2 := by
  have hk : k ≠ k2 := Ne.symm h
  induction o with
  | nil => simp [setF, getF, hk]
  | cons p rest ih =>
      by_cases hp : p.1 = k
      · simp [setF, getF, hp, hk]
      · simp [setF, getF, hp, ih]

theorem getFD_setF_same (o : Obj) (k : String) (v : Value) :
    getFD (setF o k v) k = v := by
  simp [getFD, getF_setF_same]

theorem getFD_setF_ne (o : Obj) (k k2 : String) (v : Value) (h : k2 ≠ k) :
    getFD (setF o k v) k2 = getFD o k2 := by
  simp [getFD, getF_setF_ne _ _ _ _ h]

theorem getFD_spread_notin (a b : Obj) (k : String) (h : k ∉ b.map Prod.fst) :
    getFD (spread a b) k = getFD a k := by
  induction b generalizing a with
  | nil => simp [spread]
  | cons p rest ih =>
      simp only [List.map_cons, List.mem_cons, not_or] at h
      have step : spread a (p :: rest) = spread (setF a p.1 p.2) rest := by
        simp [spread]
      rw [step, ih _ h.2, getFD_setF_ne _ _ _ _ h.1]

theorem findRec_some_idMatch (items : List Obj) (idv : Value) (r : Obj)
    (h : findRec idv items = some r) : idMatch r idv = true := by
  induction items with
  | nil => simp [findRec] at h
  | cons it rest ih =>
      by_cases hm : idMatch it idv
      · simp [findRec, hm] at h
        exact h ▸ hm
      · simp [findRec, hm] at h
        exact ih h

theorem findRec_none_iff (items : List Obj) (idv : Value) :
    findRec idv items = none ↔ ∀ it ∈ items, idMatch it idv = false := by
  induction items with
  | nil => simp [findRec]
  | cons it rest ih =>
      rcases Bool.eq_false_or_eq_true (idMatch it idv) with hm | hm
      · simp only [findRec, hm, if_true]
        constructor
        · intro hh
          exact absurd hh (by simp)
        · intro hall
          have hfalse := hall it (by simp)
          rw [hfalse] at hm
          exact absurd hm (by simp)
      · simp only [findRec, hm, Bool.false_eq_true, if_false, List.mem_cons]
        rw [ih]
        constructor
        · intro hall x hx
          rcases hx with hx | hx
          · exact hx ▸ hm
          · exact hall x hx
        · intro hall x hx
          exact hall x (Or.inr hx)

theorem replaceFirst_self (items : List Obj) (idv : Value) (r : Obj)
    (h : findRec idv items = some r) :
    replaceFirst idv (fun _ => r) items = items := by
  induction items with
  | nil => simp [findRec] at h
  | cons it rest ih =>
      by_cases hm : idMatch it idv
      · simp only [findRec, hm, if_true, Option.some.injEq] at h
        subst h
        simp [replaceFirst, hm]
      · simp only [findRec, hm, Bool.false_eq_true, if_false] at h
        simp [replaceFirst, hm, ih h]

theorem findRec_replaceFirst (items : List Obj) (idv : Value) (r : Obj)
    (f : Obj → Obj) (h : findRec idv items = some r)
    (hf : idMatch (f r) idv = true) :
    findRec idv (replaceFirst idv f items) = some (f r) := by
  induction items with
  | nil => simp [findRec] at h
  | cons it rest ih =>
      by_cases hm : idMatch it idv
      · simp [findRec, hm] at h
        subst h
        simp [replaceFirst, hm, findRec, hf]
      · simp [findRec, hm] at h
        simp [replaceFirst, hm, findRec, ih h]

theorem mem_replaceFirst (items : List Obj) (idv : Value) (f : Obj → Obj)
    (r : Obj) (h : r ∈ replaceFirst idv f items) :
    r ∈ items ∨ ∃ r0 ∈ items, r = f r0 := by
  induction items with
  | nil => simp [replaceFirst] at h
  | cons it rest ih =>
      by_cases hm : idMatch it idv
      · simp only [replaceFirst, hm, if_pos, List.mem_cons] at h
        rcases h with h | h
        · exact Or.inr ⟨it, by simp, h⟩
        · exact Or.inl (by simp [h])
      · simp only [replaceFirst, hm] at h
        simp only [Bool.false_eq_true, if_false, List.mem_cons] at h
        rcases h with h | h
        · exact Or.inl (by simp [h])
        · rcases ih h with h2 | ⟨r0, hr0, he⟩
          · exact Or.inl (by simp [h2])
          · exact Or.inr ⟨r0, by simp [hr0], he⟩

/-! ## Lemmas on `removeFirst` and actor-membership counting -/

theorem isStrVal_iff (uid : String) (v : Value) :
    isStrVal uid v = true ↔ v = Value.vStr uid := by
  cases v <;> simp [isStrVal]

theorem any_removeFirst_ne (uid u : String) (l : List Value) (h : u ≠ uid) :
    (removeFirst uid l).any (isStrVal u) = l.any (isStrVal u) := by
  induction l with
  | nil => simp [removeFirst]
  | cons v rest ih =>
      by_cases hv : isStrVal uid v = true
      · have hveq := (isStrVal_iff uid v).mp hv
        subst hveq
        have hvu : isStrVal u (Value.vStr uid) = false := by
          simp only [isStrVal, beq_eq_false_iff_ne, ne_eq]
          exact Ne.symm h
        simp [removeFirst, hv, hvu]
      · simp [removeFirst, hv, ih]

theorem any_of_any_removeFirst (uid u : String) (l : List Value)
    (h : (removeFirst uid l).any (isStrVal u) = true) :
    l.any (isStrVal u) = true := by
  induction l with
  | nil => simp [removeFirst] at h
  | cons v rest ih =>
      by_cases hv : isStrVal uid v
      · simp only [removeFirst, hv, if_pos] at h
        simp [h]
      · simp only [removeFirst, hv] at h
        simp only [Bool.false_eq_true, if_false, List.any_cons] at h
        rcases Bool.or_eq_true_iff.mp h with h2 | h2
        · simp [h2]
        · simp [ih h2]

theorem removeFirst_of_not_any (uid : String) (l : List Value)
    (h : l.any (isStrVal uid) = false) : removeFirst uid l = l := by
  induction l with
  | nil => simp [removeFirst]
  | cons v rest ih =>
      simp only [List.any_cons, Bool.or_eq_false_iff] at h
      simp [removeFirst, h.1, ih h.2]

theorem removeFirst_append_self (uid : String) (l : List Value)
    (h : l.any (isStrVal uid) = false) :
    removeFirst uid (l ++ [Value.vStr uid]) = l := by
  induction l with
  | nil => simp [removeFirst, isStrVal]
  | cons v rest ih =>
      simp only [List.any_cons, Bool.or_eq_false_iff] at h
      simp [removeFirst, h.1, ih h.2]

theorem countP_removeFirst_le (uid u : String) (l : List Value) :
    (removeFirst uid l).countP (isStrVal u) ≤ l.countP (isStrVal u) := by
  induction l with
  | nil => simp [removeFirst]
  | cons v rest ih =>
      by_cases hv : isStrVal uid v
      · simp only [removeFirst, hv, if_pos]
        calc rest.countP (isStrVal u) ≤ rest.countP (isStrVal u) := le_refl _
        _ ≤ (v :: rest).countP (isStrVal u) := by
            by_cases hu : isStrVal u v <;> simp [List.countP_cons, hu]
      · simp only [removeFirst, hv, Bool.false_eq_true, if_false]
        by_cases hu : isStrVal u v <;> simp [List.countP_cons, hu] <;> omega

theorem any_iff_countP_pos (u : String) (l : List Value) :
    l.any (isStrVal u) = true ↔ 0 < l.countP (isStrVal u) := by
  induction l with
  | nil => simp
  | cons v rest ih =>
      by_cases hv : isStrVal u v <;> simp [List.countP_cons, hv, ih]

theorem not_any_removeFirst_self (uid : String) (l : List Value)
    (hc : l.countP (isStrVal uid) ≤ 1) :
    (removeFirst uid l).any (isStrVal uid) = false := by
  induction l with
  | nil => simp [removeFirst]
  | cons v rest ih =>
      by_cases hv : isStrVal uid v
      · simp only [removeFirst, hv, if_pos]
        simp only [List.countP_cons, hv, if_pos] at hc
        have : rest.countP (isStrVal uid) = 0 := by omega
        rw [Bool.eq_false_iff]
        intro hany
        have := (any_iff_countP_pos uid rest).mp hany
        omega
      · simp only [removeFirst, hv, Bool.false_eq_true, if_false]
        simp only [List.countP_cons, hv, Bool.false_eq_true, if_false] at hc
        simp [hv, ih (by omega)]

theorem countP_append_single (uid u : String) (l : List Value) :
    (l ++ [Value.vStr uid]).countP (isStrVal u) =
      l.countP (isStrVal u) + (if uid = u then 1 else 0) := by
  by_cases h : uid = u <;> simp [List.countP_append, List.countP_cons, isStrVal, h]

/-! ## Reaction-state well-formedness and the toggle step lemmas -/

/-- The reaction field holds an array, or is falsy (coercing to `[]`). -/
def arrOrFalsy (v : Value) : Prop := (∃ l, v = Value.vArr l) ∨ truthy v = false

theorem asArr_of_falsy (v : Value) (h : truthy v = false) : asArr v = [] := by
  cases v <;> simp_all [truthy, asArr]

/-- Well-formedness of a record's reaction state: `likes`/`dislikes` hold
arrays (or falsy values coercing to `[]`), each actor id appears at most
once in each (the spec's "set of actor ids, no duplicates"), and no actor
id is in both (mutual exclusion). -/
def reactionWF (r : Obj) : Prop :=
  arrOrFalsy (getFD r kLikes) ∧ arrOrFalsy (getFD r kDislikes) ∧
  (∀ u : String, (asArr (getFD r kLikes)).countP (isStrVal u) ≤ 1) ∧
  (∀ u : String, (asArr (getFD r kDislikes)).countP (isStrVal u) ≤ 1) ∧
  (∀ u : String, ¬((asArr (getFD r kLikes)).any (isStrVal u) = true ∧
    (asArr (getFD r kDislikes)).any (isStrVal u) = true))

/-- Well-formedness of every record of a stored collection. -/
def collectionWF (items : List Obj) : Prop := ∀ r ∈ items, reactionWF r

theorem truthy_arr (l : List Value) : truthy (Value.vArr l) = true := rfl

theorem asArr_vArr (l : List Value) : asArr (Value.vArr l) = l := rfl

theorem normalizeReactions_spec (item : Obj)
    (hl : arrOrFalsy (getFD item kLikes)) (hd : arrOrFalsy (getFD item kDislikes)) :
    getFD (normalizeReactions item) kLikes = Value.vArr (asArr (getFD item kLikes)) ∧
    getFD (normalizeReactions item) kDislikes = Value.vArr (asArr (getFD item kDislikes)) ∧
    (∀ k, k ≠ kLikes → k ≠ kDislikes → getFD (normalizeReactions item) k = getFD item k) := by
  have dLD : kLikes ≠ kDislikes := by decide
  have dDL : kDislikes ≠ kLikes := by decide
  have hne1 : getFD (setF item kLikes (Value.vArr [])) kDislikes =
      getFD item kDislikes := getFD_setF_ne _ _ _ _ dDL
  rcases hl with ⟨L, hL⟩ | hLf <;> rcases hd with ⟨D, hD⟩ | hDf
  · refine ⟨?_, ?_, ?_⟩
    · simp [normalizeReactions, hL, hD, truthy_arr, asArr]
    · simp [normalizeReactions, hL, hD, truthy_arr, asArr]
    · intro k hk1 hk2
      simp [normalizeReactions, hL, hD, truthy_arr]
  · refine ⟨?_, ?_, ?_⟩
    · simp [normalizeReactions, hL, hDf, truthy_arr, asArr,
        getFD_setF_ne _ _ _ _ dLD]
    · simp [normalizeReactions, hL, hDf, truthy_arr, asArr_of_falsy _ hDf,
        getFD_setF_same]
    · intro k hk1 hk2
      simp [normalizeReactions, hL, hDf, truthy_arr, getFD_setF_ne _ _ _ _ hk2]
  · refine ⟨?_, ?_, ?_⟩
    · simp [normalizeReactions, hLf, hD, hne1, truthy_arr,
        asArr_of_falsy _ hLf, getFD_setF_same]
    · simp [normalizeReactions, hLf, hD, hne1, truthy_arr, asArr]
    · intro k hk1 hk2
      simp [normalizeReactions, hLf, hD, hne1, truthy_arr,
        getFD_setF_ne _ _ _ _ hk1]
  · refine ⟨?_, ?_, ?_⟩
    · simp [normalizeReactions, hLf, hDf, hne1, asArr_of_falsy _ hLf,
        getFD_setF_same, getFD_setF_ne _ _ _ _ dLD]
    · simp [normalizeReactions, hLf, hDf, hne1, asArr_of_falsy _ hDf,
        getFD_setF_same]
    · intro k hk1 hk2
      simp [normalizeReactions, hLf, hDf, hne1,
        getFD_setF_ne _ _ _ _ hk1, getFD_setF_ne _ _ _ _ hk2]

theorem toggleLikeRec_eq (r : Obj) (uid : String) :
    toggleLikeRec r uid =
      (if (asArr (getFD (normalizeReactions r) kLikes)).any (isStrVal uid) = true then
        setF (normalizeReactions r) kLikes
          (Value.vArr (removeFirst uid (asArr (getFD (normalizeReactions r) kLikes))))
      else if (asArr (getFD (normalizeReactions r) kDislikes)).any (isStrVal uid) = true then
        setF (setF (normalizeReactions r) kLikes
            (Value.vArr (asArr (getFD (normalizeReactions r) kLikes) ++ [Value.vStr uid])))
          kDislikes
          (Value.vArr (removeFirst uid (asArr (getFD (normalizeReactions r) kDislikes))))
      else setF (normalizeReactions r) kLikes
        (Value.vArr (asArr (getFD (normalizeReactions r) kLikes) ++ [Value.vStr uid]))) :=
  rfl

theorem toggleDislikeRec_eq (r : Obj) (uid : String) :
    toggleDislikeRec r uid =
      (if (asArr (getFD (normalizeReactions r) kDislikes)).any (isStrVal uid) = true then
        setF (normalizeReactions r) kDislikes
          (Value.vArr (removeFirst uid (asArr (getFD (normalizeReactions r) kDislikes))))
      else if (asArr (getFD (normalizeReactions r) kLikes)).any (isStrVal uid) = true then
        setF (setF (normalizeReactions r) kDislikes
            (Value.vArr (asArr (getFD (normalizeReactions r) kDislikes) ++ [Value.vStr uid])))
          kLikes
          (Value.vArr (removeFirst uid (asArr (getFD (normalizeReactions r) kLikes))))
      else setF (normalizeReactions r) kDislikes
        (Value.vArr (asArr (getFD (normalizeReactions r) kDislikes) ++ [Value.vStr uid]))) :=
  rfl

/-- What the `toggleLike` step does to the reaction fields, and that it
leaves every other field unchanged. -/
theorem toggleLikeRec_spec (r : Obj) (uid : String)
    (hl : arrOrFalsy (getFD r kLikes)) (hd : arrOrFalsy (getFD r kDislikes)) :
    getFD (toggleLikeRec r uid) kLikes = Value.vArr
      (if (asArr (getFD r kLikes)).any (isStrVal uid) = true then
        removeFirst uid (asArr (getFD r kLikes))
      else asArr (getFD r kLikes) ++ [Value.vStr uid]) ∧
    getFD (toggleLikeRec r uid) kDislikes = Value.vArr
      (if (asArr (getFD r kLikes)).any (isStrVal uid) = true then
        asArr (getFD r kDislikes)
      else removeFirst uid (asArr (getFD r kDislikes))) ∧
    (∀ k, k ≠ kLikes → k ≠ kDislikes → getFD (toggleLikeRec r uid) k = getFD r k) := by
  obtain ⟨n1, n2, n3⟩ := normalizeReactions_spec r hl hd
  have dLD : kLikes ≠ kDislikes := by decide
  have dDL : kDislikes ≠ kLikes := by decide
  rw [toggleLikeRec_eq, n1, n2]
  simp only [asArr_vArr]
  by_cases hany : (asArr (getFD r kLikes)).any (isStrVal uid) = true
  · refine ⟨?_, ?_, ?_⟩
    · simp only [if_pos hany, getFD_setF_same]
    · simp only [if_pos hany, getFD_setF_ne _ _ _ _ dDL, n2]
    · intro k hk1 hk2
      simp only [if_pos hany, getFD_setF_ne _ _ _ _ hk1, n3 k hk1 hk2]
  · by_cases hany2 : (asArr (getFD r kDislikes)).any (isStrVal uid) = true
    · refine ⟨?_, ?_, ?_⟩
      · simp only [if_neg hany, if_pos hany2, getFD_setF_ne _ _ _ _ dLD,
          getFD_setF_same]
      · simp only [if_neg hany, if_pos hany2, getFD_setF_same]
      · intro k hk1 hk2
        simp only [if_neg hany, if_pos hany2, getFD_setF_ne _ _ _ _ hk2,
          getFD_setF_ne _ _ _ _ hk1, n3 k hk1 hk2]
    · have hrm : removeFirst uid (asArr (getFD r kDislikes)) =
          asArr (getFD r kDislikes) := by
        apply removeFirst_of_not_any
        rw [← Bool.not_eq_true]
        exact hany2
      refine ⟨?_, ?_, ?_⟩
      · simp only [if_neg hany, if_neg hany2, getFD_setF_same]
      · simp only [if_neg hany, if_neg hany2, getFD_setF_ne _ _ _ _ dDL, n2, hrm]
      · intro k hk1 hk2
        simp only [if_neg hany, if_neg hany2, getFD_setF_ne _ _ _ _ hk1,
          n3 k hk1 hk2]

/-- What the `toggleDislike` step does to the reaction fields, and that it
leaves every other field unchanged. -/
theorem toggleDislikeRec_spec (r : Obj) (uid : String)
    (hl : arrOrFalsy (getFD r kLikes)) (hd : arrOrFalsy (getFD r kDislikes)) :
    getFD (toggleDislikeRec r uid) kDislikes = Value.vArr
      (if (asArr (getFD r kDislikes)).any (isStrVal uid) = true then
        removeFirst uid (asArr (getFD r kDislikes))
      else asArr (getFD r kDislikes) ++ [Value.vStr uid]) ∧
    getFD (toggleDislikeRec r uid) kLikes = Value.vArr
      (if (asArr (getFD r kDislikes)).any (isStrVal uid) = true then
        asArr (getFD r kLikes)
      else removeFirst uid (asArr (getFD r kLikes))) ∧
    (∀ k, k ≠ kLikes → k ≠ kDislikes → getFD (toggleDislikeRec r uid) k = getFD r k) := by
  obtain ⟨n1, n2, n3⟩ := normalizeReactions_spec r hl hd
  have dLD : kLikes ≠ kDislikes := by decide
  have dDL : kDislikes ≠ kLikes := by decide
  rw [toggleDislikeRec_eq, n1, n2]
  simp only [asArr_vArr]
  by_cases hany : (asArr (getFD r kDislikes)).any (isStrVal uid) = true
  · refine ⟨?_, ?_, ?_⟩
    · simp only [if_pos hany, getFD_setF_same]
    · simp only [if_pos hany, getFD_setF_ne _ _ _ _ dLD, n1]
    · intro k hk1 hk2
      simp only [if_pos hany, getFD_setF_ne _ _ _ _ hk2, n3 k hk1 hk2]
  · by_cases hany2 : (asArr (getFD r kLikes)).any (isStrVal uid) = true
    · refine ⟨?_, ?_, ?_⟩
      · simp only [if_neg hany, if_pos hany2, getFD_setF_ne _ _ _ _ dDL,
          getFD_setF_same]
      · simp only [if_neg hany, if_pos hany2, getFD_setF_same]
      · intro k hk1 hk2
        simp only [if_neg hany, if_pos hany2, getFD_setF_ne _ _ _ _ hk1,
          getFD_setF_ne _ _ _ _ hk2, n3 k hk1 hk2]
    · have hrm : removeFirst uid (asArr (getFD r kLikes)) =
          asArr (getFD r kLikes) := by
        apply removeFirst_of_not_any
        rw [← Bool.not_eq_true]
        exact hany2
      refine ⟨?_, ?_, ?_⟩
      · simp only [if_neg hany, if_neg hany2, getFD_setF_same]
      · simp only [if_neg hany, if_neg hany2, getFD_setF_ne _ _ _ _ dLD, n1, hrm]
      · intro k hk1 hk2
        simp only [if_neg hany, if_neg hany2, getFD_setF_ne _ _ _ _ hk2,
          n3 k hk1 hk2]

/-- The toggle-like step preserves a record's reaction well-formedness. -/
theorem toggleLikeRec_WF (r : Obj) (uid : String) (h : reactionWF r) :
    reactionWF (toggleLikeRec r uid) := by
  obtain ⟨hl, hd, hcl, hcd, hmx⟩ := h
  obtain ⟨s1, s2, _⟩ := toggleLikeRec_spec r uid hl hd
  by_cases hany : (asArr (getFD r kLikes)).any (isStrVal uid) = true
  · rw [if_pos hany] at s1 s2
    refine ⟨Or.inl ⟨_, s1⟩, Or.inl ⟨_, s2⟩, ?_, ?_, ?_⟩
    · intro u
      rw [s1, asArr_vArr]
      exact le_trans (countP_removeFirst_le uid u _) (hcl u)
    · intro u
      rw [s2, asArr_vArr]
      exact hcd u
    · intro u hcon
      rw [s1, asArr_vArr] at hcon
      rw [s2, asArr_vArr] at hcon
      exact hmx u ⟨any_of_any_removeFirst uid u _ hcon.1, hcon.2⟩
  · rw [if_neg hany] at s1 s2
    have hany0 : (asArr (getFD r kLikes)).countP (isStrVal uid) = 0 := by
      rcases Nat.eq_zero_or_pos ((asArr (getFD r kLikes)).countP (isStrVal uid)) with
        h0 | h0
      · exact h0
      · exact absurd ((any_iff_countP_pos uid _).mpr h0) hany
    refine ⟨Or.inl ⟨_, s1⟩, Or.inl ⟨_, s2⟩, ?_, ?_, ?_⟩
    · intro u
      rw [s1, asArr_vArr, countP_append_single]
      by_cases hu : uid = u
      · subst hu
        simp [hany0]
      · have := hcl u
        simp [hu]
        omega
    · intro u
      rw [s2, asArr_vArr]
      exact le_trans (countP_removeFirst_le uid u _) (hcd u)
    · intro u hcon
      rw [s1, asArr_vArr] at hcon
      rw [s2, asArr_vArr] at hcon
      by_cases hu : u = uid
      · subst hu
        exact absurd hcon.2 (by simp [not_any_removeFirst_self u _ (hcd u)])
      · have h1 : (asArr (getFD r kLikes)).any (isStrVal u) = true := by
          have := hcon.1
          rw [List.any_append] at this
          rcases Bool.or_eq_true_iff.mp this with h2 | h2
          · exact h2
          · exfalso
            simp only [List.any_cons, List.any_nil, Bool.or_false] at h2
            simp only [isStrVal, beq_iff_eq] at h2
            exact hu h2.symm
        have h2 : (asArr (getFD r kDislikes)).any (isStrVal u) = true := by
          rw [← any_removeFirst_ne uid u _ hu]
          exact hcon.2
        exact hmx u ⟨h1, h2⟩

/-- The toggle-dislike step preserves a record's reaction well-formedness. -/
theorem toggleDislikeRec_WF (r : Obj) (uid : String) (h : reactionWF r) :
    reactionWF (toggleDislikeRec r uid) := by
  obtain ⟨hl, hd, hcl, hcd, hmx⟩ := h
  obtain ⟨s1, s2, _⟩ := toggleDislikeRec_spec r uid hl hd
  by_cases hany : (asArr (getFD r kDislikes)).any (isStrVal uid) = true
  · rw [if_pos hany] at s1 s2
    refine ⟨Or.inl ⟨_, s2⟩, Or.inl ⟨_, s1⟩, ?_, ?_, ?_⟩
    · intro u
      rw [s2, asArr_vArr]
      exact hcl u
    · intro u
      rw [s1, asArr_vArr]
      exact le_trans (countP_removeFirst_le uid u _) (hcd u)
    · intro u hcon
      rw [s2, asArr_vArr] at hcon
      rw [s1, asArr_vArr] at hcon
      exact hmx u ⟨hcon.1, any_of_any_removeFirst uid u _ hcon.2⟩
  · rw [if_neg hany] at s1 s2
    have hany0 : (asArr (getFD r kDislikes)).countP (isStrVal uid) = 0 := by
      rcases Nat.eq_zero_or_pos ((asArr (getFD r kDislikes)).countP (isStrVal uid)) with
        h0 | h0
      · exact h0
      · exact absurd ((any_iff_countP_pos uid _).mpr h0) hany
    refine ⟨Or.inl ⟨_, s2⟩, Or.inl ⟨_, s1⟩, ?_, ?_, ?_⟩
    · intro u
      rw [s2, asArr_vArr]
      exact le_trans (countP_removeFirst_le uid u _) (hcl u)
    · intro u
      rw [s1, asArr_vArr, countP_append_single]
      by_cases hu : uid = u
      · subst hu
        simp [hany0]
      · have := hcd u
        simp [hu]
        omega
    · intro u hcon
      rw [s2, asArr_vArr] at hcon
      rw [s1, asArr_vArr] at hcon
      by_cases hu : u = uid
      · subst hu
        exact absurd hcon.1 (by simp [not_any_removeFirst_self u _ (hcl u)])
      · have h2 : (asArr (getFD r kDislikes)).any (isStrVal u) = true := by
          have := hcon.2
          rw [List.any_append] at this
          rcases Bool.or_eq_true_iff.mp this with h2 | h2
          · exact h2
          · exfalso
            simp only [List.any_cons, List.any_nil, Bool.or_false] at h2
            simp only [isStrVal, beq_iff_eq] at h2
            exact hu h2.symm
        have h1 : (asArr (getFD r kLikes)).any (isStrVal u) = true := by
          rw [← any_removeFirst_ne uid u _ hu]
          exact hcon.1
        exact hmx u ⟨h1, h2⟩

/-- Reaction well-formedness only depends on the two reaction fields. -/
theorem reactionWF_congr (r1 r2 : Obj)
    (hL : getFD r2 kLikes = getFD r1 kLikes)
    (hD : getFD r2 kDislikes = getFD r1 kDislikes)
    (h : reactionWF r1) : reactionWF r2 := by
  obtain ⟨a, b, c, d, e⟩ := h
  refine ⟨hL ▸ a, hD ▸ b, ?_, ?_, ?_⟩
  · intro u
    rw [hL]
    exact c u
  · intro u
    rw [hD]
    exact d u
  · intro u
    rw [hL, hD]
    exact e u

theorem collectionWF_replaceFirst (items : List Obj) (idv : Value)
    (f : Obj → Obj) (hf : ∀ r ∈ items, reactionWF r → reactionWF (f r))
    (h : collectionWF items) : collectionWF (replaceFirst idv f items) := by
  intro r hr
  rcases mem_replaceFirst items idv f r hr with h1 | ⟨r0, hr0, he⟩
  · exact h r h1
  · exact he ▸ hf r0 hr0 (h r0 hr0)

theorem findRec_some_mem (items : List Obj) (idv : Value) (r : Obj)
    (h : findRec idv items = some r) : r ∈ items := by
  induction items with
  | nil => simp [findRec] at h
  | cons it rest ih =>
      by_cases hm : idMatch it idv
      · simp only [findRec, hm, if_true, Option.some.injEq] at h
        simp [h]
      · simp only [findRec, hm, Bool.false_eq_true, if_false] at h
        simp [ih h]

/-- The empty-reaction record created by `create` is well-formed, and
`update` leaves the reaction fields alone when the payload does not set
them. -/
theorem updateRec_reactions_unchanged (now uid uname : String) (data old : Obj)
    (hl : kLikes ∉ data.map Prod.fst) (hd : kDislikes ∉ data.map Prod.fst) :
    getFD (updateRec now uid uname data old).1 kLikes = getFD old kLikes ∧
    getFD (updateRec now uid uname data old).1 kDislikes = getFD old kDislikes := by
  have d1 : kLikes ≠ kEditHistory := by decide
  have d2 : kLikes ≠ kUpdatedByName := by decide
  have d3 : kLikes ≠ kUpdatedBy := by decide
  have d4 : kLikes ≠ kUpdatedDate := by decide
  have e1 : kDislikes ≠ kEditHistory := by decide
  have e2 : kDislikes ≠ kUpdatedByName := by decide
  have e3 : kDislikes ≠ kUpdatedBy := by decide
  have e4 : kDislikes ≠ kUpdatedDate := by decide
  by_cases hch : (diffChanges old data).isEmpty
  · simp [updateRec, hch]
  · constructor
    · simp only [updateRec, hch, Bool.false_eq_true, if_false,
        getFD_setF_ne _ _ _ _ d1, getFD_setF_ne _ _ _ _ d2,
        getFD_setF_ne _ _ _ _ d3, getFD_setF_ne _ _ _ _ d4]
      exact getFD_spread_notin old data kLikes hl
    · simp only [updateRec, hch, Bool.false_eq_true, if_false,
        getFD_setF_ne _ _ _ _ e1, getFD_setF_ne _ _ _ _ e2,
        getFD_setF_ne _ _ _ _ e3, getFD_setF_ne _ _ _ _ e4]
      exact getFD_spread_notin old data kDislikes hd

theorem create_reactions_empty (items : List Obj) (data : Obj)
    (genId now : String) (userId : Option String) (session : String × String) :
    getFD (DB.create items data genId now userId session).2 kLikes = Value.vArr [] ∧
    getFD (DB.create items data genId now userId session).2 kDislikes = Value.vArr [] := by
  constructor <;>
    simp [DB.create, getFD_setF_same, getFD_setF_ne, kId, kCreatedDate, kCreatedBy,
      kCreatedByName, kUpdatedDate, kUpdatedBy, kUpdatedByName, kLikes, kDislikes,
      kEditHistory]

theorem reactionWF_empty (r : Obj)
    (hL : getFD r kLikes = Value.vArr [])
    (hD : getFD r kDislikes = Value.vArr []) : reactionWF r := by
  refine ⟨Or.inl ⟨_, hL⟩, Or.inl ⟨_, hD⟩, ?_, ?_, ?_⟩ <;>
    intro u <;> simp [hL, hD, asArr_vArr]

/-! ## Claim C10: `create` overrides the system fields of the payload -/

/-- C10: for every `create(payload)` call, the system-assigned fields of
the returned (and stored) record — `id`, `created_date`, `created_by`,
`created_by_name`, `updated_date`, `updated_by`, `updated_by_name`,
`likes`, `dislikes`, `edit_history` — take the system-generated values
even when the payload supplies keys with those names; in particular
`likes`, `dislikes` and `edit_history` of a freshly created record are
empty regardless of the payload. -/
theorem create_system_fields_override (items : List Obj) (data : Obj)
    (genId now : String) (userId : Option String) (session : String × String) :
    getFD (DB.create items data genId now userId session).2 kId = Value.vStr genId ∧
    getFD (DB.create items data genId now userId session).2 kCreatedDate = Value.vStr now ∧
    getFD (DB.create items data genId now userId session).2 kCreatedBy =
      Value.vStr (resolveActor userId session.1) ∧
    getFD (DB.create items data genId now userId session).2 kCreatedByName =
      Value.vStr session.2 ∧
    getFD (DB.create items data genId now userId session).2 kUpdatedDate = Value.vStr now ∧
    getFD (DB.create items data genId now userId session).2 kUpdatedBy =
      Value.vStr (resolveActor userId session.1) ∧
    getFD (DB.create items data genId now userId session).2 kUpdatedByName =
      Value.vStr session.2 ∧
    getFD (DB.create items data genId now userId session).2 kLikes = Value.vArr [] ∧
    getFD (DB.create items data genId now userId session).2 kDislikes = Value.vArr [] ∧
    getFD (DB.create items data genId now userId session).2 kEditHistory = Value.vArr [] := by
  refine ⟨?_, ?_, ?_, ?_, ?_, ?_, ?_, ?_, ?_, ?_⟩ <;>
    simp [DB.create, getFD_setF_same, getFD_setF_ne, kId, kCreatedDate, kCreatedBy,
      kCreatedByName, kUpdatedDate, kUpdatedBy, kUpdatedByName, kLikes, kDislikes,
      kEditHistory]

/-! ## Claim C7: id generation at `create` -/

/-- C7 counterexample: the id is taken from the random draw without any
check against the collection, so a draw equal to an existing id is simply
appended — `create` on a collection already holding id `k7m2p9xqz`, with
the generator producing `k7m2p9xqz`, yields a stored collection with a
duplicated id, contradicting "does not collide with any id already
present". -/
theorem create_collision_cex :
    idsOf (DB.create [[(kId, Value.vStr ("k7m2p9xqz"))]] []
      ("k7m2p9xqz") ("2024-01-01T00:00:00.000Z") none (("u"), ("U"))).1 =
      [("k7m2p9xqz"), ("k7m2p9xqz")] ∧
    ¬ (idsOf (DB.create [[(kId, Value.vStr ("k7m2p9xqz"))]] []
      ("k7m2p9xqz") ("2024-01-01T00:00:00.000Z") none (("u"), ("U"))).1).Nodup := by
  have hids : idsOf (DB.create [[(kId, Value.vStr ("k7m2p9xqz"))]] []
      ("k7m2p9xqz") ("2024-01-01T00:00:00.000Z") none (("u"), ("U"))).1 =
      [("k7m2p9xqz"), ("k7m2p9xqz")] := by
    simp [idsOf, DB.create, spread, getFD, getF, setF, kId, kCreatedDate, kCreatedBy,
      kCreatedByName, kUpdatedDate, kUpdatedBy, kUpdatedByName, kLikes, kDislikes,
      kEditHistory]
  rw [hids]
  simp

/-- C7 amended: for every `create` call, the assigned id is exactly the
string produced by the random generator
(`Math.random().toString(36).substr(2, 9)`), chosen independently of the
collection's existing ids, and the new record is appended unconditionally
— no collision check is performed, so a collision, though improbable, is
not prevented. -/
theorem create_id_from_generator (items : List Obj) (data : Obj)
    (genId now : String) (userId : Option String) (session : String × String) :
    (DB.create items data genId now userId session).1 =
      items ++ [(DB.create items data genId now userId session).2] ∧
    getFD (DB.create items data genId now userId session).2 kId = Value.vStr genId := by
  constructor
  · rfl
  · simp [DB.create, getFD_setF_same, getFD_setF_ne, kId, kCreatedDate, kCreatedBy,
      kCreatedByName, kUpdatedDate, kUpdatedBy, kUpdatedByName, kLikes, kDislikes,
      kEditHistory]

/-! ## Claim C9: operations on a missing id -/

/-- C9: a `get`, `update`, `toggleLike` or `toggleDislike` whose id matches
no record returns an absent result (and performs no write), never raising;
`delete` still reports success on a missing id and persists the (unchanged)
collection. -/
theorem missing_id_ops (items : List Obj) (idv : Value) (data : Obj)
    (now : String) (userId : Option String) (session : String × String)
    (uid : String) (h : DB.get items idv = none) :
    DB.update items idv data now userId session = (items, none, false) ∧
    DB.toggleLike items idv uid = (items, none) ∧
    DB.toggleDislike items idv uid = (items, none) ∧
    DB.deleteOp items idv = (items, true) := by
  have hf : findRec idv items = none := h
  refine ⟨?_, ?_, ?_, ?_⟩
  · simp [DB.update, hf]
  · simp [DB.toggleLike, hf]
  · simp [DB.toggleDislike, hf]
  · have hall := (findRec_none_iff items idv).mp hf
    simp only [DB.deleteOp, Prod.mk.injEq, and_true]
    apply List.filter_eq_self.mpr
    intro a ha
    simp [hall a ha]

/-- C9 witness at a concrete collection and missing id. -/
theorem missing_id_ops_witness :
    DB.get [[(kId, Value.vStr ("a"))]] (Value.vStr ("zzz")) = none ∧
    DB.deleteOp [[(kId, Value.vStr ("a"))]] (Value.vStr ("zzz")) =
      ([[(kId, Value.vStr ("a"))]], true) := by
  have h : DB.get [[(kId, Value.vStr ("a"))]] (Value.vStr ("zzz")) = none := by
    simp [DB.get, findRec, idMatch, getFD, getF, kId]
  exact ⟨h, (missing_id_ops [[(kId, Value.vStr ("a"))]] (Value.vStr ("zzz")) []
    ("t") none (("s"), ("S")) ("u") h).2.2.2⟩

/-! ## Claim C6: owner filtering in `list` -/

/-- C6: a `list` call on the private entity type (`ShoppingList`) with an
owner filter supplied returns exactly the records whose `user_id`
string-equals the supplied owner id; on the shared entity types
(`Product`, `PriceEntry`, `Store`, `User`) the owner-filter argument has
no effect on the result. -/
theorem list_visibility (items : List Obj) (u : Value) (hu : truthy u = true)
    (e : String) (he : e ∈ SHARED_ENTITIES) (sort : Option String)
    (limit : Option Int) (userId : Option Value) :
    DB.list ("ShoppingList") none none (some u) items =
      items.filter (ownerMatches u) ∧
    DB.list e sort limit userId items = DB.list e sort limit none items := by
  constructor
  · simp [DB.list, PRIVATE_ENTITIES, hu]
  · have hne : e ∉ PRIVATE_ENTITIES := by
      simp only [SHARED_ENTITIES, List.mem_cons, List.not_mem_nil, or_false] at he
      rcases he with h1 | h1 | h1 | h1 <;> subst h1 <;> decide
    cases userId with
    | none => rfl
    | some u2 => simp [DB.list, hne]

/-! ## Claim C4: like/dislike mutual exclusion -/

/-- C4 counterexample: `update` merges the payload blindly, so a payload
that sets `likes` and `dislikes` to overlapping sets produces a stored
record whose `likes` and `dislikes` both contain the same actor id —
`update` does not preserve the mutual-exclusion invariant. -/
theorem update_breaks_exclusion_cex :
    (asArr (getFD ((DB.update [[(kId, Value.vStr ("1"))]] (Value.vStr ("1"))
        [(kLikes, Value.vArr [Value.vStr ("u")]),
         (kDislikes, Value.vArr [Value.vStr ("u")])]
        ("t") none (("s"), ("S"))).2.1.getD []) kLikes)).any (isStrVal ("u")) = true ∧
    (asArr (getFD ((DB.update [[(kId, Value.vStr ("1"))]] (Value.vStr ("1"))
        [(kLikes, Value.vArr [Value.vStr ("u")]),
         (kDislikes, Value.vArr [Value.vStr ("u")])]
        ("t") none (("s"), ("S"))).2.1.getD []) kDislikes)).any (isStrVal ("u")) = true ∧
    (DB.update [[(kId, Value.vStr ("1"))]] (Value.vStr ("1"))
        [(kLikes, Value.vArr [Value.vStr ("u")]),
         (kDislikes, Value.vArr [Value.vStr ("u")])]
        ("t") none (("s"), ("S"))).1 =
      [(DB.update [[(kId, Value.vStr ("1"))]] (Value.vStr ("1"))
        [(kLikes, Value.vArr [Value.vStr ("u")]),
         (kDislikes, Value.vArr [Value.vStr ("u")])]
        ("t") none (("s"), ("S"))).2.1.getD []] := by
  refine ⟨?_, ?_, ?_⟩ <;>
    simp [DB.update, findRec, idMatch, getFD, getF, kId, updateRec, diffChanges,
      stringifyTop, replaceFirst, spread, setF, asArr, isStrVal, kLikes, kDislikes,
      kEditHistory, kUpdatedDate, kUpdatedBy, kUpdatedByName, resolveActor,
      mkHistEntry, List.filterMap]

/-- C4 amended: the mutual-exclusion invariant (together with the spec's
duplicate-free set semantics of the reaction arrays) is preserved by
`create`, `delete`, `toggleLike` and `toggleDislike` for all records of
the collection, and by `update` whenever the payload does not itself set
the `likes` or `dislikes` fields; an `update` payload that sets them can
break it (see the counterexample). -/
theorem reaction_exclusion_preserved
    (items : List Obj) (idv : Value) (uid : String) (dataC dataU : Obj)
    (genId now : String) (userId : Option String) (session : String × String)
    (hwf : collectionWF items)
    (hul : kLikes ∉ dataU.map Prod.fst)
    (hud : kDislikes ∉ dataU.map Prod.fst) :
    collectionWF (DB.create items dataC genId now userId session).1 ∧
    collectionWF (DB.deleteOp items idv).1 ∧
    collectionWF (DB.toggleLike items idv uid).1 ∧
    collectionWF (DB.toggleDislike items idv uid).1 ∧
    collectionWF (DB.update items idv dataU now userId session).1 := by
  refine ⟨?_, ?_, ?_, ?_, ?_⟩
  · intro r hr
    have hsplit : r ∈ items ∨ r = (DB.create items dataC genId now userId session).2 := by
      have : (DB.create items dataC genId now userId session).1 =
          items ++ [(DB.create items dataC genId now userId session).2] := rfl
      rw [this] at hr
      simpa using hr
    rcases hsplit with h1 | h1
    · exact hwf r h1
    · obtain ⟨e1, e2⟩ := create_reactions_empty items dataC genId now userId session
      exact h1 ▸ reactionWF_empty _ e1 e2
  · intro r hr
    have : r ∈ items := List.mem_of_mem_filter hr
    exact hwf r this
  · cases hfind : findRec idv items with
    | none =>
        intro r hr
        simp only [DB.toggleLike, hfind] at hr
        exact hwf r hr
    | some it =>
        intro r hr
        simp only [DB.toggleLike, hfind] at hr
        exact collectionWF_replaceFirst items idv _
          (fun r0 _ hwf0 => toggleLikeRec_WF r0 uid hwf0) hwf r hr
  · cases hfind : findRec idv items with
    | none =>
        intro r hr
        simp only [DB.toggleDislike, hfind] at hr
        exact hwf r hr
    | some it =>
        intro r hr
        simp only [DB.toggleDislike, hfind] at hr
        exact collectionWF_replaceFirst items idv _
          (fun r0 _ hwf0 => toggleDislikeRec_WF r0 uid hwf0) hwf r hr
  · cases hfind : findRec idv items with
    | none =>
        intro r hr
        simp only [DB.update, hfind] at hr
        exact hwf r hr
    | some it =>
        intro r hr
        simp only [DB.update, hfind] at hr
        have hitwf : reactionWF it := hwf it (findRec_some_mem items idv it hfind)
        obtain ⟨u1, u2⟩ := updateRec_reactions_unchanged now
          (resolveActor userId session.1) session.2 dataU it hul hud
        exact collectionWF_replaceFirst items idv _
          (fun r0 _ _ => reactionWF_congr it _ u1 u2 hitwf) hwf r hr

/-- C4 witness for the amended preservation theorem at a concrete state. -/
theorem reaction_exclusion_preserved_witness :
    collectionWF [[(kId, Value.vStr ("1"))]] ∧
    kLikes ∉ ([((("n") : String), Value.vNum 1)].map Prod.fst) ∧
    kDislikes ∉ ([((("n") : String), Value.vNum 1)].map Prod.fst) ∧
    collectionWF (DB.toggleLike [[(kId, Value.vStr ("1"))]] (Value.vStr ("1")) ("u")).1 ∧
    collectionWF (DB.update [[(kId, Value.vStr ("1"))]] (Value.vStr ("1"))
      [((("n") : String), Value.vNum 1)] ("t") none (("s"), ("S"))).1 := by
  have hwf : collectionWF [[(kId, Value.vStr ("1"))]] := by
    intro r hr
    simp only [List.mem_singleton] at hr
    subst hr
    have hL : getFD [(kId, Value.vStr ("1"))] kLikes = Value.vUndef := by
      simp [getFD, getF, kId, kLikes]
    have hD : getFD [(kId, Value.vStr ("1"))] kDislikes = Value.vUndef := by
      simp [getFD, getF, kId, kDislikes]
    refine ⟨Or.inr (by rw [hL]; rfl), Or.inr (by rw [hD]; rfl), ?_, ?_, ?_⟩ <;>
      intro u <;> simp [hL, hD, asArr]
  have hm1 : kLikes ∉ ([((("n") : String), Value.vNum 1)].map Prod.fst) := by decide
  have hm2 : kDislikes ∉ ([((("n") : String), Value.vNum 1)].map Prod.fst) := by decide
  have main := reaction_exclusion_preserved [[(kId, Value.vStr ("1"))]]
    (Value.vStr ("1")) ("u") [] [((("n") : String), Value.vNum 1)]
    ("g") ("t") none (("s"), ("S")) hwf hm1 hm2
  exact ⟨hwf, hm1, hm2, main.2.2.1, main.2.2.2.2⟩

/-! ## Claim C5: the toggle pair laws -/

theorem idMatch_toggleLikeRec (r : Obj) (uid : String) (idv : Value)
    (hl : arrOrFalsy (getFD r kLikes)) (hd : arrOrFalsy (getFD r kDislikes)) :
    idMatch (toggleLikeRec r uid) idv = idMatch r idv := by
  obtain ⟨_, _, s3⟩ := toggleLikeRec_spec r uid hl hd
  have d1 : kId ≠ kLikes := by decide
  have d2 : kId ≠ kDislikes := by decide
  simp [idMatch, s3 kId d1 d2]

/-- C5: applying `toggleLike` twice with the same actor returns the
record's `likes` to its original state as a set of actor ids (the spec's
semantics for the reaction field); and, starting from a record in whose
`likes` and `dislikes` the actor does not appear, `toggleLike` followed by
`toggleDislike` leaves the actor absent from `likes` and present in
`dislikes`. -/
theorem toggle_pair_spec (items : List Obj) (idv : Value) (uid : String) (r : Obj)
    (hfound : findRec idv items = some r)
    (hl : arrOrFalsy (getFD r kLikes)) (hd : arrOrFalsy (getFD r kDislikes))
    (hcnt : (asArr (getFD r kLikes)).countP (isStrVal uid) ≤ 1) :
    (∀ u : String,
      (asArr (getFD ((DB.toggleLike (DB.toggleLike items idv uid).1 idv uid).2.getD [])
        kLikes)).any (isStrVal u) = (asArr (getFD r kLikes)).any (isStrVal u)) ∧
    ((asArr (getFD r kLikes)).any (isStrVal uid) = false →
     (asArr (getFD r kDislikes)).any (isStrVal uid) = false →
     (asArr (getFD ((DB.toggleDislike (DB.toggleLike items idv uid).1 idv uid).2.getD [])
        kLikes)).any (isStrVal uid) = false ∧
     (asArr (getFD ((DB.toggleDislike (DB.toggleLike items idv uid).1 idv uid).2.getD [])
        kDislikes)).any (isStrVal uid) = true) := by
  obtain ⟨s1, s2, s3⟩ := toggleLikeRec_spec r uid hl hd
  have hl1 : arrOrFalsy (getFD (toggleLikeRec r uid) kLikes) := Or.inl ⟨_, s1⟩
  have hd1 : arrOrFalsy (getFD (toggleLikeRec r uid) kDislikes) := Or.inl ⟨_, s2⟩
  have hmatch : idMatch (toggleLikeRec r uid) idv = true := by
    rw [idMatch_toggleLikeRec r uid idv hl hd]
    exact findRec_some_idMatch items idv r hfound
  have hstep1 : DB.toggleLike items idv uid =
      (replaceFirst idv (fun x => toggleLikeRec x uid) items,
       some (toggleLikeRec r uid)) := by
    simp [DB.toggleLike, hfound]
  have hfound1 : findRec idv (replaceFirst idv (fun x => toggleLikeRec x uid) items) =
      some (toggleLikeRec r uid) :=
    findRec_replaceFirst items idv r _ hfound hmatch
  constructor
  · intro u
    have hstep2 : (DB.toggleLike (DB.toggleLike items idv uid).1 idv uid).2 =
        some (toggleLikeRec (toggleLikeRec r uid) uid) := by
      rw [hstep1]
      simp [DB.toggleLike, hfound1]
    rw [hstep2]
    simp only [Option.getD_some]
    obtain ⟨t1, _, _⟩ := toggleLikeRec_spec (toggleLikeRec r uid) uid hl1 hd1
    rw [t1, s1]
    by_cases hany : (asArr (getFD r kLikes)).any (isStrVal uid) = true
    · rw [if_pos hany]
      simp only [asArr_vArr]
      have hno : (removeFirst uid (asArr (getFD r kLikes))).any (isStrVal uid) = false :=
        not_any_removeFirst_self uid _ hcnt
      rw [if_neg (by simp [hno])]
      by_cases hu : u = uid
      · subst hu
        rw [List.any_append]
        simp [isStrVal, hany]
      · rw [List.any_append]
        have : ([Value.vStr uid].any (isStrVal u)) = false := by
          simp only [List.any_cons, List.any_nil, Bool.or_false, isStrVal,
            beq_eq_false_iff_ne, ne_eq]
          exact fun hh => hu hh.symm
        rw [this, Bool.or_false, any_removeFirst_ne uid u _ hu]
    · rw [if_neg hany]
      simp only [asArr_vArr]
      have hyes : ((asArr (getFD r kLikes)) ++ [Value.vStr uid]).any (isStrVal uid) =
          true := by
        rw [List.any_append]
        simp [isStrVal]
      rw [if_pos hyes]
      rw [removeFirst_append_self uid _ (by rwa [← Bool.not_eq_true])]
  · intro hu1 hu2
    have hstep2 : (DB.toggleDislike (DB.toggleLike items idv uid).1 idv uid).2 =
        some (toggleDislikeRec (toggleLikeRec r uid) uid) := by
      rw [hstep1]
      simp [DB.toggleDislike, hfound1]
    rw [hstep2]
    simp only [Option.getD_some]
    obtain ⟨w1, w2, _⟩ := toggleDislikeRec_spec (toggleLikeRec r uid) uid hl1 hd1
    have hr1d : getFD (toggleLikeRec r uid) kDislikes =
        Value.vArr (asArr (getFD r kDislikes)) := by
      rw [s2, if_neg (by simp [hu1]), removeFirst_of_not_any uid _ hu2]
    have hr1l : getFD (toggleLikeRec r uid) kLikes =
        Value.vArr (asArr (getFD r kLikes) ++ [Value.vStr uid]) := by
      rw [s1, if_neg (by simp [hu1])]
    rw [hr1d] at w1 w2
    rw [hr1l] at w2
    simp only [asArr_vArr] at w1 w2
    rw [if_neg (by simp [hu2])] at w1
    rw [if_neg (by simp [hu2])] at w2
    constructor
    · rw [w2, asArr_vArr, removeFirst_append_self uid _ hu1]
      exact hu1
    · rw [w1, asArr_vArr, List.any_append]
      simp [isStrVal]

/-- C5 witness: the toggle pair on a concrete record with no reactions. -/
theorem toggle_pair_spec_witness :
    findRec (Value.vStr ("1")) [[(kId, Value.vStr ("1"))]] =
      some [(kId, Value.vStr ("1"))] ∧
    arrOrFalsy (getFD [(kId, Value.vStr ("1"))] kLikes) ∧
    arrOrFalsy (getFD [(kId, Value.vStr ("1"))] kDislikes) ∧
    (asArr (getFD [(kId, Value.vStr ("1"))] kLikes)).countP (isStrVal ("u")) ≤ 1 ∧
    (∀ u : String,
      (asArr (getFD ((DB.toggleLike (DB.toggleLike [[(kId, Value.vStr ("1"))]]
          (Value.vStr ("1")) ("u")).1 (Value.vStr ("1")) ("u")).2.getD [])
        kLikes)).any (isStrVal u) =
      (asArr (getFD [(kId, Value.vStr ("1"))] kLikes)).any (isStrVal u)) := by
  have hL : getFD [(kId, Value.vStr ("1"))] kLikes = Value.vUndef := by
    simp [getFD, getF, kId, kLikes]
  have hD : getFD [(kId, Value.vStr ("1"))] kDislikes = Value.vUndef := by
    simp [getFD, getF, kId, kDislikes]
  have hfound : findRec (Value.vStr ("1")) [[(kId, Value.vStr ("1"))]] =
      some [(kId, Value.vStr ("1"))] := by
    simp [findRec, idMatch, getFD, getF, kId]
  have hl : arrOrFalsy (getFD [(kId, Value.vStr ("1"))] kLikes) := by
    rw [hL]; exact Or.inr rfl
  have hd : arrOrFalsy (getFD [(kId, Value.vStr ("1"))] kDislikes) := by
    rw [hD]; exact Or.inr rfl
  have hcnt : (asArr (getFD [(kId, Value.vStr ("1"))] kLikes)).countP
      (isStrVal ("u")) ≤ 1 := by
    rw [hL]; simp [asArr]
  exact ⟨hfound, hl, hd, hcnt,
    (toggle_pair_spec [[(kId, Value.vStr ("1"))]] (Value.vStr ("1")) ("u")
      [(kId, Value.vStr ("1"))] hfound hl hd hcnt).1⟩

/-! ## Claim C1: the write-conflict retry -/

/-- C1 counterexample: with an empty initial store, writer A appends a
record with id `a` and succeeds; writer B, which read the same initial
state, appends a record with id `b`, hits the 409 path, and its single
retry writes B's unchanged stale serialization under the refreshed SHA —
the final stored collection holds only `b`, not both writers' changes,
refuting the claimed re-read-and-re-apply retry. -/
theorem conflict_retry_cex :
    idsOf (conflictedPair ⟨[], 0⟩
      (fun l => l ++ [[(kId, Value.vStr ("a"))]])
      (fun l => l ++ [[(kId, Value.vStr ("b"))]])).content = [("b")] ∧
    ("a") ∉ idsOf (conflictedPair ⟨[], 0⟩
      (fun l => l ++ [[(kId, Value.vStr ("a"))]])
      (fun l => l ++ [[(kId, Value.vStr ("b"))]])).content := by
  have h : idsOf (conflictedPair ⟨[], 0⟩
      (fun l => l ++ [[(kId, Value.vStr ("a"))]])
      (fun l => l ++ [[(kId, Value.vStr ("b"))]])).content = [("b")] := by
    simp [conflictedPair, getStorageM, setStorageM, idsOf, getFD, getF, kId]
  refine ⟨h, ?_⟩
  rw [h]
  decide

/-- C1 amended: on a write conflict the single retry refreshes only the
revision token and rewrites the same serialized collection that was first
attempted — it does not re-apply the mutation to the freshly read state —
so after writer A's successful write and writer B's conflicted-then-retried
write, the stored collection is exactly B's mutation of the state both
writers originally read; A's changes survive only if B's mutation result
happens to contain them. -/
theorem conflict_retry_writes_stale (r0 : Remote)
    (mutA mutB : List Obj → List Obj) :
    conflictedPair r0 mutA mutB = ⟨mutB r0.content, r0.rev + 2⟩ := by
  simp [conflictedPair, getStorageM, setStorageM]

/-! ## Claims C2 and C3: `update` diffing and history -/

theorem update_found (items : List Obj) (idv : Value) (old : Obj) (data : Obj)
    (now : String) (userId : Option String) (session : String × String)
    (h : findRec idv items = some old) :
    DB.update items idv data now userId session =
      (replaceFirst idv
        (fun _ => (updateRec now (resolveActor userId session.1) session.2 data old).1)
        items,
       some (updateRec now (resolveActor userId session.1) session.2 data old).1,
       (updateRec now (resolveActor userId session.1) session.2 data old).2) := by
  simp [DB.update, h]

/-- C3: an `update` whose payload fields all have serialized values equal
to the stored record's produces an empty diff: no history entry is
appended, `updated_date` is untouched, the persisting write is skipped
(third component `false`), and the unchanged record is returned. -/
theorem update_no_change (items : List Obj) (idv : Value) (old : Obj)
    (data : Obj) (now : String) (userId : Option String)
    (session : String × String)
    (hfound : findRec idv items = some old)
    (heq : ∀ p ∈ data, stringifyTop (getFD old p.1) = stringifyTop p.2) :
    DB.update items idv data now userId session = (items, some old, false) := by
  have hd : diffChanges old data = [] := by
    apply List.filterMap_eq_nil_iff.mpr
    intro p hp
    simp [heq p hp]
  have hur : updateRec now (resolveActor userId session.1) session.2 data old =
      (old, false) := by
    simp [updateRec, hd]
  rw [update_found items idv old data now userId session hfound, hur]
  simp [replaceFirst_self items idv old hfound]

/-- C3 witness: updating a record with its own current field value. -/
theorem update_no_change_witness :
    findRec (Value.vStr ("1")) [[(kId, Value.vStr ("1")), (("a"), Value.vNum 1)]] =
      some [(kId, Value.vStr ("1")), (("a"), Value.vNum 1)] ∧
    (∀ p ∈ [((("a") : String), Value.vNum 1)],
      stringifyTop (getFD [(kId, Value.vStr ("1")), (("a"), Value.vNum 1)] p.1) =
        stringifyTop p.2) ∧
    DB.update [[(kId, Value.vStr ("1")), (("a"), Value.vNum 1)]] (Value.vStr ("1"))
        [(("a"), Value.vNum 1)] ("t2") none (("s"), ("S")) =
      ([[(kId, Value.vStr ("1")), (("a"), Value.vNum 1)]],
        some [(kId, Value.vStr ("1")), (("a"), Value.vNum 1)], false) := by
  have h1 : findRec (Value.vStr ("1"))
      [[(kId, Value.vStr ("1")), (("a"), Value.vNum 1)]] =
      some [(kId, Value.vStr ("1")), (("a"), Value.vNum 1)] := by
    simp [findRec, idMatch, getFD, getF, kId]
  have h2 : ∀ p ∈ [((("a") : String), Value.vNum 1)],
      stringifyTop (getFD [(kId, Value.vStr ("1")), (("a"), Value.vNum 1)] p.1) =
        stringifyTop p.2 := by
    intro p hp
    simp only [List.mem_singleton] at hp
    subst hp
    simp [getFD, getF, kId]
  exact ⟨h1, h2, update_no_change _ _ _ _ _ _ _ h1 h2⟩

/-- C2: an `update` whose payload changes exactly the two (non-system)
fields `a` and `b` — their serialized values differing from the stored
ones — appends exactly one history entry to the record's `edit_history`,
listing both fields with `old` the prior stored value and `new` the
payload value; `updated_date`, `updated_by` and `updated_by_name` are
bumped; the write is performed (persisted); and the returned record is the
merge carrying the payload values. -/
theorem update_two_fields (items : List Obj) (idv : Value) (old : Obj)
    (a b : String) (va vb : Value) (now : String) (userId : Option String)
    (session : String × String) (hist : List Value)
    (hab : a ≠ b)
    (haS : a ∉ [kEditHistory, kUpdatedDate, kUpdatedBy, kUpdatedByName])
    (hbS : b ∉ [kEditHistory, kUpdatedDate, kUpdatedBy, kUpdatedByName])
    (hda : stringifyTop (getFD old a) ≠ stringifyTop va)
    (hdb : stringifyTop (getFD old b) ≠ stringifyTop vb)
    (hfound : findRec idv items = some old)
    (hh : getFD old kEditHistory = Value.vArr hist) :
    (DB.update items idv [(a, va), (b, vb)] now userId session).2.2 = true ∧
    getFD ((DB.update items idv [(a, va), (b, vb)] now userId session).2.1.getD [])
        kEditHistory =
      Value.vArr (hist ++ [mkHistEntry now (resolveActor userId session.1) session.2
        [⟨a, getFD old a, va⟩, ⟨b, getFD old b, vb⟩]]) ∧
    getFD ((DB.update items idv [(a, va), (b, vb)] now userId session).2.1.getD [])
        kUpdatedDate = Value.vStr now ∧
    getFD ((DB.update items idv [(a, va), (b, vb)] now userId session).2.1.getD [])
        kUpdatedBy = Value.vStr (resolveActor userId session.1) ∧
    getFD ((DB.update items idv [(a, va), (b, vb)] now userId session).2.1.getD [])
        kUpdatedByName = Value.vStr session.2 ∧
    getFD ((DB.update items idv [(a, va), (b, vb)] now userId session).2.1.getD [])
        a = va ∧
    getFD ((DB.update items idv [(a, va), (b, vb)] now userId session).2.1.getD [])
        b = vb := by
  obtain ⟨ha1, ha2, ha3, ha4⟩ :
      a ≠ kEditHistory ∧ a ≠ kUpdatedDate ∧ a ≠ kUpdatedBy ∧ a ≠ kUpdatedByName := by
    simp only [List.mem_cons, List.not_mem_nil, or_false, not_or] at haS
    exact haS
  obtain ⟨hb1, hb2, hb3, hb4⟩ :
      b ≠ kEditHistory ∧ b ≠ kUpdatedDate ∧ b ≠ kUpdatedBy ∧ b ≠ kUpdatedByName := by
    simp only [List.mem_cons, List.not_mem_nil, or_false, not_or] at hbS
    exact hbS
  have hchs : diffChanges old [(a, va), (b, vb)] =
      [⟨a, getFD old a, va⟩, ⟨b, getFD old b, vb⟩] := by
    simp [diffChanges, ha1, hb1, hda, hdb]
  rw [update_found items idv old [(a, va), (b, vb)] now userId session hfound]
  have d1 : kUpdatedDate ≠ kEditHistory := by decide
  have d2 : kUpdatedDate ≠ kUpdatedByName := by decide
  have d3 : kUpdatedDate ≠ kUpdatedBy := by decide
  have d4 : kUpdatedBy ≠ kEditHistory := by decide
  have d5 : kUpdatedBy ≠ kUpdatedByName := by decide
  have d6 : kUpdatedByName ≠ kEditHistory := by decide
  refine ⟨?_, ?_, ?_, ?_, ?_, ?_, ?_⟩ <;>
    simp [updateRec, hchs, spread, getFD_setF_same, getFD_setF_ne, asArr, hh,
      ha1, ha2, ha3, ha4, hb1, hb2, hb3, hb4, hab, d1, d2, d3, d4, d5, d6]

/-- C2 witness: a two-field update on a concrete record. -/
theorem update_two_fields_witness :
    (("x") : String) ≠ ("y") ∧
    stringifyTop (getFD [(kId, Value.vStr ("1")), (kEditHistory, Value.vArr [])] ("x")) ≠
      stringifyTop (Value.vNum 2) ∧
    stringifyTop (getFD [(kId, Value.vStr ("1")), (kEditHistory, Value.vArr [])] ("y")) ≠
      stringifyTop (Value.vNum 3) ∧
    findRec (Value.vStr ("1")) [[(kId, Value.vStr ("1")), (kEditHistory, Value.vArr [])]] =
      some [(kId, Value.vStr ("1")), (kEditHistory, Value.vArr [])] ∧
    getFD [(kId, Value.vStr ("1")), (kEditHistory, Value.vArr [])] kEditHistory =
      Value.vArr [] ∧
    ((DB.update [[(kId, Value.vStr ("1")), (kEditHistory, Value.vArr [])]]
        (Value.vStr ("1")) [(("x"), Value.vNum 2), (("y"), Value.vNum 3)]
        ("t2") none (("s"), ("S"))).2.2 = true ∧
    getFD ((DB.update [[(kId, Value.vStr ("1")), (kEditHistory, Value.vArr [])]]
        (Value.vStr ("1")) [(("x"), Value.vNum 2), (("y"), Value.vNum 3)]
        ("t2") none (("s"), ("S"))).2.1.getD []) kEditHistory =
      Value.vArr ([] ++ [mkHistEntry ("t2") (resolveActor none ("s"))
        (("s"), ("S")).2
        [⟨("x"), getFD [(kId, Value.vStr ("1")), (kEditHistory, Value.vArr [])] ("x"),
          Value.vNum 2⟩,
         ⟨("y"), getFD [(kId, Value.vStr ("1")), (kEditHistory, Value.vArr [])] ("y"),
          Value.vNum 3⟩]])) := by
  have hab : (("x") : String) ≠ ("y") := by decide
  have hda : stringifyTop
      (getFD [(kId, Value.vStr ("1")), (kEditHistory, Value.vArr [])] ("x")) ≠
      stringifyTop (Value.vNum 2) := by
    simp [getFD, getF, kId, kEditHistory, stringifyTop]
  have hdb : stringifyTop
      (getFD [(kId, Value.vStr ("1")), (kEditHistory, Value.vArr [])] ("y")) ≠
      stringifyTop (Value.vNum 3) := by
    simp [getFD, getF, kId, kEditHistory, stringifyTop]
  have hfound : findRec (Value.vStr ("1"))
      [[(kId, Value.vStr ("1")), (kEditHistory, Value.vArr [])]] =
      some [(kId, Value.vStr ("1")), (kEditHistory, Value.vArr [])] := by
    simp [findRec, idMatch, getFD, getF, kId]
  have hh : getFD [(kId, Value.vStr ("1")), (kEditHistory, Value.vArr [])]
      kEditHistory = Value.vArr [] := by
    simp [getFD, getF, kId, kEditHistory]
  have main := update_two_fields
    [[(kId, Value.vStr ("1")), (kEditHistory, Value.vArr [])]] (Value.vStr ("1"))
    [(kId, Value.vStr ("1")), (kEditHistory, Value.vArr [])] ("x") ("y")
    (Value.vNum 2) (Value.vNum 3) ("t2") none (("s"), ("S")) []
    hab (by decide) (by decide) hda hdb hfound hh
  exact ⟨hab, hda, hdb, hfound, hh, main.1, main.2.1⟩

/-! ## Claim C8: the byte-safe encode/decode round trip -/

theorem charToSextet_sextetToChar : ∀ s : Nat, s < 64 →
    charToSextet (sextetToChar s) = s := by decide

theorem sextetToChar_ne_61 : ∀ s : Nat, s < 64 → sextetToChar s ≠ 61 := by decide

theorem base64_roundtrip (l : List Nat) (h : ∀ x ∈ l, x < 256) :
    base64Decode (base64Encode l) = l := by
  match l with
  | [] => rfl
  | [a] =>
      have ha : a < 256 := h a (by simp)
      have h1 := charToSextet_sextetToChar (a / 4) (by omega)
      have h2 := charToSextet_sextetToChar ((a % 4) * 16) (by omega)
      simp only [base64Encode, base64Decode, h1, h2]
      rw [if_pos (show ((61 : Nat) == 61) = true from rfl)]
      simp only [List.cons.injEq, and_true]
      omega
  | [a, b] =>
      have ha : a < 256 := h a (by simp)
      have hb : b < 256 := h b (by simp)
      have h1 := charToSextet_sextetToChar (a / 4) (by omega)
      have h2 := charToSextet_sextetToChar ((a % 4) * 16 + b / 16) (by omega)
      have h3 := charToSextet_sextetToChar ((b % 16) * 4) (by omega)
      have hn3 : ((sextetToChar ((b % 16) * 4)) == 61) = false := by
        have := sextetToChar_ne_61 ((b % 16) * 4) (by omega)
        simpa using this
      simp only [base64Encode, base64Decode, h1, h2, h3]
      rw [if_neg (by simp [hn3]), if_pos (show ((61 : Nat) == 61) = true from rfl)]
      simp only [List.cons.injEq, and_true]
      refine ⟨by omega, by omega⟩
  | a :: b :: c :: rest =>
      have ha : a < 256 := h a (by simp)
      have hb : b < 256 := h b (by simp)
      have hc : c < 256 := h c (by simp)
      have ih := base64_roundtrip rest (fun x hx => h x (by simp [hx]))
      have h1 := charToSextet_sextetToChar (a / 4) (by omega)
      have h2 := charToSextet_sextetToChar ((a % 4) * 16 + b / 16) (by omega)
      have h3 := charToSextet_sextetToChar ((b % 16) * 4 + c / 64) (by omega)
      have h4 := charToSextet_sextetToChar (c % 64) (by omega)
      have hn3 : ((sextetToChar ((b % 16) * 4 + c / 64)) == 61) = false := by
        have := sextetToChar_ne_61 ((b % 16) * 4 + c / 64) (by omega)
        simpa using this
      have hn4 : ((sextetToChar (c % 64)) == 61) = false := by
        have := sextetToChar_ne_61 (c % 64) (by omega)
        simpa using this
      simp only [base64Encode, base64Decode, hn3, hn4, h1, h2, h3, h4]
      simp only [Bool.false_eq_true, if_false, List.cons.injEq]
      refine ⟨by omega, by omega, by omega, ih⟩

theorem utf8EncodeChar_bytes_lt (ch : Nat) (h : ch < 0x110000) :
    ∀ x ∈ utf8EncodeChar ch, x < 256 := by
  intro x hx
  by_cases h1 : ch < 0x80
  · simp [utf8EncodeChar, h1] at hx
    omega
  · by_cases h2 : ch < 0x800
    · simp [utf8EncodeChar, h1, h2] at hx
      rcases hx with rfl | rfl <;> omega
    · by_cases h3 : ch < 0x10000
      · simp [utf8EncodeChar, h1, h2, h3] at hx
        rcases hx with rfl | rfl | rfl <;> omega
      · simp [utf8EncodeChar, h1, h2, h3] at hx
        rcases hx with rfl | rfl | rfl | rfl <;> omega

theorem utf8Encode_bytes_lt (s : List Nat) (h : ∀ c ∈ s, c < 0x110000) :
    ∀ x ∈ utf8Encode s, x < 256 := by
  induction s with
  | nil => simp [utf8Encode]
  | cons ch cs ih =>
      intro x hx
      simp only [utf8Encode, List.mem_append] at hx
      rcases hx with hx | hx
      · exact utf8EncodeChar_bytes_lt ch (h ch (by simp)) x hx
      · exact ih (fun c hc => h c (by simp [hc])) x hx

theorem utf8Decode_encodeChar (ch : Nat) (hv : ch < 0x110000)
    (hs : ¬(0xD800 ≤ ch ∧ ch < 0xE000)) (rest : List Nat) :
    utf8Decode (utf8EncodeChar ch ++ rest) = ch :: utf8Decode rest := by
  by_cases h1 : ch < 0x80
  · simp only [utf8EncodeChar, if_pos h1, List.cons_append, List.nil_append]
    rw [utf8Decode.eq_2, if_pos h1]
  · by_cases h2 : ch < 0x800
    · have e1 : ¬(0xC0 + ch / 64 < 0x80) := by omega
      have e2 : ¬(0xC0 + ch / 64 < 0xC2) := by omega
      have e3 : 0xC0 + ch / 64 < 0xE0 := by omega
      have econt : isCont (0x80 + ch % 64) = true := by
        simp only [isCont, Bool.and_eq_true, decide_eq_true_eq]
        omega
      simp only [utf8EncodeChar, if_neg h1, if_pos h2, List.cons_append,
        List.nil_append]
      rw [utf8Decode.eq_2, if_neg e1, if_neg e2, if_pos e3, utf8DecodeTwo.eq_1,
        if_pos econt]
      have hvv : (0xC0 + ch / 64 - 0xC0) * 64 + (0x80 + ch % 64 - 0x80) = ch := by
        omega
      rw [hvv]
    · by_cases h3 : ch < 0x10000
      · have e1 : ¬(0xE0 + ch / 4096 < 0x80) := by omega
        have e2 : ¬(0xE0 + ch / 4096 < 0xC2) := by omega
        have e3 : ¬(0xE0 + ch / 4096 < 0xE0) := by omega
        have e4 : 0xE0 + ch / 4096 < 0xF0 := by omega
        have econd : (isCont (0x80 + ch / 64 % 64) && isCont (0x80 + ch % 64) &&
            !((0xE0 + ch / 4096) == 0xE0 && decide (0x80 + ch / 64 % 64 < 0xA0)) &&
            !((0xE0 + ch / 4096) == 0xED && decide (0xA0 ≤ 0x80 + ch / 64 % 64))) =
            true := by
          simp only [isCont, Bool.and_eq_true, Bool.not_eq_eq_eq_not, Bool.not_true,
            Bool.and_eq_false_iff, decide_eq_true_eq, decide_eq_false_iff_not,
            beq_eq_false_iff_ne, ne_eq]
          omega
        simp only [utf8EncodeChar, if_neg h1, if_neg h2, if_pos h3,
          List.cons_append, List.nil_append]
        rw [utf8Decode.eq_2, if_neg e1, if_neg e2, if_neg e3, if_pos e4,
          utf8DecodeThree.eq_1, if_pos econd]
        have hvv : (0xE0 + ch / 4096 - 0xE0) * 4096 +
            (0x80 + ch / 64 % 64 - 0x80) * 64 + (0x80 + ch % 64 - 0x80) = ch := by
          omega
        rw [hvv]
      · have e1 : ¬(0xF0 + ch / 262144 < 0x80) := by omega
        have e2 : ¬(0xF0 + ch / 262144 < 0xC2) := by omega
        have e3 : ¬(0xF0 + ch / 262144 < 0xE0) := by omega
        have e4 : ¬(0xF0 + ch / 262144 < 0xF0) := by omega
        have e5 : 0xF0 + ch / 262144 < 0xF5 := by omega
        have econd : (isCont (0x80 + ch / 4096 % 64) && isCont (0x80 + ch / 64 % 64) &&
            isCont (0x80 + ch % 64) &&
            !((0xF0 + ch / 262144) == 0xF0 && decide (0x80 + ch / 4096 % 64 < 0x90)) &&
            !((0xF0 + ch / 262144) == 0xF4 && decide (0x90 ≤ 0x80 + ch / 4096 % 64))) =
            true := by
          simp only [isCont, Bool.and_eq_true, Bool.not_eq_eq_eq_not, Bool.not_true,
            Bool.and_eq_false_iff, decide_eq_true_eq, decide_eq_false_iff_not,
            beq_eq_false_iff_ne, ne_eq]
          omega
        simp only [utf8EncodeChar, if_neg h1, if_neg h2, if_neg h3,
          List.cons_append, List.nil_append]
        rw [utf8Decode.eq_2, if_neg e1, if_neg e2, if_neg e3, if_neg e4, if_pos e5,
          utf8DecodeFour.eq_1, if_pos econd]
        have hvv : (0xF0 + ch / 262144 - 0xF0) * 262144 +
            (0x80 + ch / 4096 % 64 - 0x80) * 4096 +
            (0x80 + ch / 64 % 64 - 0x80) * 64 + (0x80 + ch % 64 - 0x80) = ch := by
          omega
        rw [hvv]

theorem utf8_roundtrip (s : List Nat) (h : ∀ c ∈ s, validScalar c) :
    utf8Decode (utf8Encode s) = s := by
  induction s with
  | nil => simp [utf8Encode, utf8Decode]
  | cons ch cs ih =>
      have hc := h ch (by simp)
      simp only [utf8Encode]
      rw [utf8Decode_encodeChar ch hc.1 hc.2 (utf8Encode cs),
        ih (fun c hcc => h c (by simp [hcc]))]

/-- C8: the write path’s byte-safe encoding
(`btoa(unescape(encodeURIComponent(s)))`, i.e. base64 over the UTF-8
bytes) followed by the read path’s decoding (`atob` + byte extraction +
`TextDecoder().decode`) yields the original string for every well-formed
string, including non-ASCII multi-byte text. -/
theorem encode_decode_roundtrip (s : List Nat) (h : ∀ c ∈ s, validScalar c) :
    decodeContent (encodeContent s) = s := by
  unfold decodeContent encodeContent
  rw [base64_roundtrip (utf8Encode s)
    (utf8Encode_bytes_lt s (fun c hc => (h c hc).1))]
  exact utf8_roundtrip s h

/-- C8 witness: a concrete string with 1-, 2-, 3- and 4-byte characters
(`H`, `é`, a CJK ideograph, an emoji). -/
theorem encode_decode_roundtrip_witness :
    (∀ c ∈ [(72 : Nat), 233, 0x4E2D, 0x1F600], validScalar c) ∧
    decodeContent (encodeContent [72, 233, 0x4E2D, 0x1F600]) =
      [72, 233, 0x4E2D, 0x1F600] := by
  have h : ∀ c ∈ [(72 : Nat), 233, 0x4E2D, 0x1F600], validScalar c := by
    intro c hc
    simp only [List.mem_cons, List.not_mem_nil, or_false] at hc
    rcases hc with rfl | rfl | rfl | rfl <;> exact ⟨by omega, by omega⟩
  exact ⟨h, encode_decode_roundtrip _ h⟩

/-- C6 witness at a concrete private and shared listing. -/
theorem list_visibility_witness :
    truthy (Value.vStr ("u1")) = true ∧
    ("Product") ∈ SHARED_ENTITIES ∧
    (DB.list ("ShoppingList") none none (some (Value.vStr ("u1")))
        [[(kUserId, Value.vStr ("u1"))], [(kUserId, Value.vStr ("u2"))]] =
      [[(kUserId, Value.vStr ("u1"))], [(kUserId, Value.vStr ("u2"))]].filter
        (ownerMatches (Value.vStr ("u1"))) ∧
    DB.list ("Product") none none (some (Value.vStr ("u1")))
        [[(kUserId, Value.vStr ("u1"))], [(kUserId, Value.vStr ("u2"))]] =
      DB.list ("Product") none none none
        [[(kUserId, Value.vStr ("u1"))], [(kUserId, Value.vStr ("u2"))]]) :=
  ⟨by decide, by decide,
    list_visibility [[(kUserId, Value.vStr ("u1"))], [(kUserId, Value.vStr ("u2"))]]
      (Value.vStr ("u1")) (by decide) ("Product") (by decide) none none
      (some (Value.vStr ("u1")))⟩

end PricePilot
